import Mathlib

/-!
# I2CSlaveMode: a shallow embedding of the register-file / EEPROM control engine

The development follows `src/I2CSlaveMode/I2CSlaveMode.cpp` (the newer of the two
versions in the repository) and `src/I2CSlaveMode/I2CSlaveMode.h`.

* Bytes (`byte`, `uint8_t`) are natural numbers; where the C code narrows a wider
  value to a byte the model reduces modulo `256` explicitly.
* The static members of the class are the fields of `Device`; the EEPROM content
  and the digital output pins, which the code reaches through the Arduino
  libraries, are fields of the same record.
* The `while (control_mask > 0)` loop of `controlUpdated` is run with fuel; the
  model answers `none` when the fuel is exhausted before the mask reaches zero.
-/

namespace I2C

/-! ## Constants (`#define`s of the source) -/

/-- Number of registers, `NUM_REGISTERS` of the header. -/
abbrev NUM_REGISTERS : Nat := 256
/-- Compiled-in slave address. -/
abbrev I2C_SLAVE_ADDRESS : Nat := 0x08

/-- Register key: control register. -/
abbrev CONTROL_REG : Nat := 0x00
/-- Register key: alternate slave address. -/
abbrev I2C_ADDR_REG : Nat := 0x01
/-- Register key: default value for program control registers. -/
abbrev DEFAULT_VAL_REG : Nat := 0x02
/-- Register key: program control offset (unused by the code). -/
abbrev PC_OFFSET : Nat := 0x03
/-- Register key: first program control register. -/
abbrev PC_START_REG : Nat := 0x04

/-- Control bit mask `LOCAL_PRESERVE`. -/
abbrev LOCAL_PRESERVE : Nat := 0x01
/-- Control bit mask `I2C_SLAVE_ALT`. -/
abbrev I2C_SLAVE_ALT : Nat := 0x02
/-- Control bit mask `LOAD_EEPROM_TO_LOCAL`. -/
abbrev LOAD_EEPROM_TO_LOCAL : Nat := 0x04
/-- Control bit mask `READ_FROM_EEPROM`. -/
abbrev READ_FROM_EEPROM : Nat := 0x08
/-- Control bit mask `READ_LOCATION`. -/
abbrev READ_LOCATION : Nat := 0x10
/-- Control bit mask `EEPROM_RESET`. -/
abbrev EEPROM_RESET : Nat := 0x20
/-- Control bit mask `LOAD_LOCAL_TO_EEPROM`. -/
abbrev LOAD_LOCAL_TO_EEPROM : Nat := 0x40
/-- Control bit mask `DEVICE_RESET`. -/
abbrev DEVICE_RESET : Nat := 0x80

/-- Default content when filling program control registers. -/
abbrev REGISTERS_DEFAULT_VAL : Nat := 0x00
/-- Default bit mask of the control register. -/
abbrev CONTROL_DEFAULT_VAL : Nat := LOAD_EEPROM_TO_LOCAL

/-- Arduino level `HIGH`. -/
abbrev HIGH : Bool := true
/-- Arduino level `LOW`. -/
abbrev LOW : Bool := false

/-! ## Memory cells and the storage adapter -/

/-- One cell assignment `m[a] = v` on a byte array seen as a map from index to byte. -/
def setCell (m : Nat → Nat) (a v : Nat) : Nat → Nat :=
  fun i => if i = a then v else m i

/-- Modelled from the spec: the storage adapter (`EEPROM.read` of the Arduino EEPROM
library, which is not among the repository sources), `storage.read(address) -> byte`. -/
def EEPROM_read (e : Nat → Nat) (idx : Nat) : Nat :=
  e idx

/-- Modelled from the spec: the storage adapter (`EEPROM.update` of the Arduino EEPROM
library, which is not among the repository sources), `storage.update(address, value)`:
no-op if the value already matches, write-through otherwise. -/
def EEPROM_update (e : Nat → Nat) (idx val : Nat) : Nat → Nat :=
  if EEPROM_read e idx = val then e else setCell e idx val

/-- The loop `for (int i = lo; i < hi; i++) body`, as `forCount (hi - lo) lo`:
the first argument counts the iterations that remain, the second is `i`. -/
def forCount {σ : Type} (body : Nat → σ → σ) : Nat → Nat → σ → σ
  | 0, _, s => s
  | n + 1, i, s => forCount body n (i + 1) (body i s)

/-- The loop `for (int i = lo; i < hi; i++) body`. -/
def forRange {σ : Type} (lo hi : Nat) (body : Nat → σ → σ) (s : σ) : σ :=
  forCount body (hi - lo) lo s

/-! ## Device state -/

/-- The static members of `I2CSlaveMode`, together with the EEPROM content and the
digital pins the code drives. -/
structure Device where
  /-- Address latch `_reg` (an `int`). -/
  _reg : Int
  /-- Local register buffer `_regbuffer[NUM_REGISTERS]`. -/
  _regbuffer : Nat → Nat
  /-- Mode flag: serve reads from EEPROM. -/
  _read_eeprom : Bool
  /-- Mode flag: use the alternate slave address. -/
  _use_slave_alt : Bool
  /-- Pin wired to the reset line. -/
  _reset_pin : Int
  /-- Pending device reset. -/
  _device_reset : Bool
  /-- Resolved bus address. -/
  _i2c_slave_address : Nat
  /-- EEPROM content, cell by cell. -/
  EEPROM : Nat → Nat
  /-- Level last written to each digital pin (`true` is `HIGH`). -/
  pin_level : Int → Bool
  /-- Pins configured as outputs by `pinMode(pin, OUTPUT)`. -/
  pin_output : Int → Bool

/-- Arduino `digitalWrite(pin, level)`. -/
def digitalWrite (pin : Int) (level : Bool) (s : Device) : Device :=
  { s with pin_level := fun p => if p = pin then level else s.pin_level p }

/-- Arduino `pinMode(pin, OUTPUT)`. -/
def pinModeOutput (pin : Int) (s : Device) : Device :=
  { s with pin_output := fun p => if p = pin then true else s.pin_output p }

/-! ## `controlUpdated` -/

/-- The local variable `local_preserve` of `controlUpdated` together with the statics. -/
structure ControlFrame where
  /-- Local `bool local_preserve`. -/
  local_preserve : Bool
  /-- The statics and the EEPROM. -/
  dev : Device

/-- The copy loop of `case LOAD_EEPROM_TO_LOCAL`, as the new content of `_regbuffer`:
`for (int i = CONTROL_REG; i < NUM_REGISTERS; i++) _regbuffer[i] = EEPROM.read(i);`. -/
def loadEepromToLocal (eeprom regbuffer : Nat → Nat) : Nat → Nat :=
  forRange CONTROL_REG NUM_REGISTERS (fun i buf => setCell buf i (EEPROM_read eeprom i))
    regbuffer

/-- The statements of `case EEPROM_RESET`, as the new EEPROM content: three
`EEPROM.update` calls, the read of the default fill value, and the fill loop from
`PC_START_REG`. -/
def eepromReset (perma_mask : Nat) (eeprom : Nat → Nat) : Nat → Nat :=
  let e1 := EEPROM_update eeprom CONTROL_REG (CONTROL_DEFAULT_VAL &&& perma_mask)
  let e2 := EEPROM_update e1 I2C_ADDR_REG I2C_SLAVE_ADDRESS
  let e3 := EEPROM_update e2 DEFAULT_VAL_REG REGISTERS_DEFAULT_VAL
  let c := EEPROM_read e3 DEFAULT_VAL_REG
  forRange PC_START_REG NUM_REGISTERS (fun i e => EEPROM_update e i c) e3

/-- The copy loop of `case LOAD_LOCAL_TO_EEPROM`, as the new EEPROM content: every
register goes to the EEPROM, the control cell as `cntrl_reg_val & perma_mask`. -/
def loadLocalToEeprom (cntrl_reg_val perma_mask : Nat) (regbuffer eeprom : Nat → Nat) :
    Nat → Nat :=
  forRange CONTROL_REG NUM_REGISTERS
    (fun i e =>
      if i ≠ CONTROL_REG then EEPROM_update e i (regbuffer i)
      else EEPROM_update e i (cntrl_reg_val &&& perma_mask))
    eeprom

/-- The body of `switch (cur_control)` in `controlUpdated`; a value that matches no
`case` label falls out of the switch. -/
def controlCase (cntrl_reg_val perma_mask cur_control : Nat) (st : ControlFrame) :
    ControlFrame :=
  if cur_control = 0x00 then st
  else if cur_control = LOCAL_PRESERVE then
    { st with local_preserve := true }
  else if cur_control = I2C_SLAVE_ALT then
    { st with dev := { st.dev with _use_slave_alt := true } }
  else if cur_control = LOAD_EEPROM_TO_LOCAL then
    if st.local_preserve = false ∧ cntrl_reg_val &&& LOAD_LOCAL_TO_EEPROM = 0 then
      { st with dev := { st.dev with
          _regbuffer := loadEepromToLocal st.dev.EEPROM st.dev._regbuffer } }
    else st
  else if cur_control = READ_FROM_EEPROM then
    { st with dev := { st.dev with _read_eeprom := true } }
  else if cur_control = READ_LOCATION then st
  else if cur_control = EEPROM_RESET then
    { st with dev := { st.dev with EEPROM := eepromReset perma_mask st.dev.EEPROM } }
  else if cur_control = LOAD_LOCAL_TO_EEPROM then
    { st with dev := { st.dev with
        EEPROM := loadLocalToEeprom cntrl_reg_val perma_mask st.dev._regbuffer
          st.dev.EEPROM } }
  else if cur_control = DEVICE_RESET then
    { st with dev := { st.dev with _device_reset := true } }
  else st

/-- The last statement of `controlUpdated`:
`_regbuffer[CONTROL_REG] = cntrl_reg_val & perma_mask;`. -/
def storeControl (cntrl_reg_val perma_mask : Nat) (s : Device) : Device :=
  { s with _regbuffer := setCell s._regbuffer CONTROL_REG (cntrl_reg_val &&& perma_mask) }

/-- The loop `while (control_mask > 0) { switch ...; control_mask <<= 1; cur_control = ... }`
with `control_mask` a byte. `none` when the fuel runs out with the mask still positive. -/
def controlLoop : Nat → Nat → Nat → Nat → Nat → ControlFrame → Option ControlFrame
  | 0, _, _, control_mask, _, st => if control_mask > 0 then none else some st
  | fuel + 1, cntrl_reg_val, perma_mask, control_mask, cur_control, st =>
    if control_mask > 0 then
      controlLoop fuel cntrl_reg_val perma_mask ((control_mask <<< 1) % 256)
        (((control_mask <<< 1) % 256) &&& cntrl_reg_val)
        (controlCase cntrl_reg_val perma_mask cur_control st)
    else some st

/-- `I2CSlaveMode::controlUpdated(byte cr)`. The fuel is the number of values a byte
mask can take. -/
def controlUpdated (cr : Nat) (s : Device) : Option Device :=
  let cntrl_reg_val := cr
  let control_mask := 0x01
  let perma_mask := 0x0E
  let s1 := { s with _read_eeprom := false, _use_slave_alt := false }
  (controlLoop 256 cntrl_reg_val perma_mask control_mask (control_mask &&& cntrl_reg_val)
      { local_preserve := false, dev := s1 }).map fun st =>
    storeControl cntrl_reg_val perma_mask st.dev

/-! ## Constructor, accessors and the bus callbacks -/

/-- The constructor `I2CSlaveMode::I2CSlaveMode(uint8_t address, int pin)`; the result
is the state handed to `Wire.begin(_i2c_slave_address)`. -/
def I2CSlaveMode (address : Nat) (pin : Int) (s : Device) : Option Device :=
  let s1 := { s with _reset_pin := pin }
  let s2 := digitalWrite s1._reset_pin HIGH s1
  let s3 := pinModeOutput s2._reset_pin s2
  let cr := EEPROM_read s3.EEPROM CONTROL_REG
  (controlUpdated cr s3).map fun s4 =>
    let s5 := { s4 with _i2c_slave_address := address }
    if s5._use_slave_alt = true then
      let s6 := { s5 with _i2c_slave_address := EEPROM_read s5.EEPROM I2C_ADDR_REG }
      if s6._i2c_slave_address < 0x03 ∨ s6._i2c_slave_address > 0x77 then
        { s6 with _i2c_slave_address := I2C_SLAVE_ADDRESS }
      else s6
    else s5

/-- `I2CSlaveMode::resetIfRequested()`. -/
def resetIfRequested (s : Device) : Device :=
  if s._device_reset = true then digitalWrite s._reset_pin LOW s else s

/-- `I2CSlaveMode::getRegister(byte address)`. -/
def getRegister (s : Device) (address : Nat) : Nat :=
  s._regbuffer address

/-- `I2CSlaveMode::getAddress()`. -/
def getAddress (s : Device) : Nat :=
  s._i2c_slave_address

/-- `Wire.read()` on the receive buffer: the next byte, or `-1` when none is left. -/
def Wire_read (wire : List Nat) : Int × List Nat :=
  match wire with
  | [] => (-1, [])
  | b :: rest => ((b : Int), rest)

/-- The inner loop `while (Wire.available() > 0)` of `receiveEvent`; `rx` is the byte
register counter. -/
def receiveLoop : List Nat → Nat → Device → Option Device
  | [], _, s => some s
  | b :: rest, rx, s =>
    let rx1 := rx % NUM_REGISTERS
    let s1 := { s with _regbuffer := setCell s._regbuffer rx1 (b % 256) }
    (if rx1 = CONTROL_REG then controlUpdated (s1._regbuffer rx1) s1 else some s1).bind
      fun s2 => receiveLoop rest ((rx1 + 1) % 256) s2

/-- `I2CSlaveMode::receiveEvent(int len)`, with `wire` the bytes waiting in the receive
buffer of the bus library. -/
def receiveEvent (len : Int) (wire : List Nat) (s : Device) : Option Device :=
  if len = 1 then
    some { s with _reg := (Wire_read wire).1 }
  else
    let s0 := { s with _reg := 0 }
    match wire with
    | [] => some s0
    | b :: rest => receiveLoop rest (b % 256) s0

/-- `I2CSlaveMode::readData(int p, bool from_eeprom)`, for an index `p` that is not
negative. -/
def readData (s : Device) (p : Nat) (from_eeprom : Bool) : Nat :=
  if from_eeprom = true then
    if p = CONTROL_REG then EEPROM_read s.EEPROM p ||| 0x10
    else EEPROM_read s.EEPROM p
  else s._regbuffer p

/-- `I2CSlaveMode::sendEvent()`: the statics after the call and the byte handed to
`Wire.write`. -/
def sendEvent (s : Device) : Device × Nat :=
  let p := (s._reg % (NUM_REGISTERS : Int)).toNat
  let c := readData s p s._read_eeprom
  (s, c)

/-! ## `getRange` -/

/-- The local array `byte buffer[end-start]` of `getRange`: its declared length, the
cells written so far (`none` for a cell never written) and the indices written, the
latest first. -/
structure RangeBuffer where
  /-- Declared length `end - start`. -/
  size : Int
  /-- Content of the cells that were written. -/
  cells : Nat → Option Nat
  /-- Indices written by the loop, latest first. -/
  writes : List Nat

/-- The loop `for (byte i = start; i++ ; i<end) { buffer[i] = _regbuffer[i]; }` of
`getRange`: the loop test is `i++` (it continues when `i` was not zero and increments
`i` as a byte), the body runs with the incremented `i`, and `i<end`, in the place of the
increment, has no effect. `none` when the fuel runs out. -/
def getRangeLoop (regbuffer : Nat → Nat) : Nat → Nat → RangeBuffer → Option RangeBuffer
  | 0, _, _ => none
  | fuel + 1, i, buffer =>
    if i ≠ 0 then
      getRangeLoop regbuffer fuel ((i + 1) % 256)
        { buffer with
          cells := fun k => if k = (i + 1) % 256 then some (regbuffer ((i + 1) % 256))
            else buffer.cells k
          writes := ((i + 1) % 256) :: buffer.writes }
    else some buffer

/-- `I2CSlaveMode::getRange(byte start, byte end)`: the local buffer as the loop leaves
it. The fuel is the number of values the byte `i` can take. -/
def getRange (s : Device) (start end_ : Nat) : Option RangeBuffer :=
  getRangeLoop s._regbuffer 256 start
    { size := (end_ : Int) - (start : Int), cells := fun _ => none, writes := [] }

/-! ## The mask sequence of the control loop -/

/-- The values `control_mask` takes at the passing tests of `while (control_mask > 0)`
in `controlUpdated`, in order: the loop of `controlLoop` with the switch left out.
`none` when the fuel runs out with the mask still positive. -/
def controlMasks : Nat → Nat → Option (List Nat)
  | 0, control_mask => if control_mask > 0 then none else some []
  | fuel + 1, control_mask =>
    if control_mask > 0 then
      (controlMasks fuel ((control_mask <<< 1) % 256)).map fun ms => control_mask :: ms
    else some []

/-! ## The write path in the words of the specification -/

/-- The single-register write as the specification words it: `write(address, byte)`
sets `RegisterFile[address]` unconditionally and, if `address` is the control register
address, immediately invokes the control interpreter on `byte`. -/
def specWrite (address byte : Nat) (s : Device) : Option Device :=
  let s1 := { s with _regbuffer := setCell s._regbuffer address byte }
  if address = CONTROL_REG then controlUpdated byte s1 else some s1

/-- The multi-byte write as the specification words it: for `k = 0..n-1` in order, the
single-register write of `d_k` to address `(a + k) mod 256`. The second argument is the
index `k` of the head of the list. -/
def specWriteSeq (a : Nat) : Nat → List Nat → Device → Option Device
  | _, [], s => some s
  | k, d :: ds, s => (specWrite ((a + k) % 256) d s).bind (specWriteSeq a (k + 1) ds)

/-! ## Start-up state and the persisted control mask -/

/-- The static state initialisers of the source (`_reg = 0`, a zero-initialised
`_regbuffer`, both mode flags `false`, `_reset_pin = 12`, `_device_reset = false`,
`_i2c_slave_address = I2C_SLAVE_ADDRESS`) over a given EEPROM content, with no pin
driven yet. -/
def powerOn (eeprom : Nat → Nat) : Device :=
  { _reg := 0
    _regbuffer := fun _ => 0
    _read_eeprom := false
    _use_slave_alt := false
    _reset_pin := 12
    _device_reset := false
    _i2c_slave_address := I2C_SLAVE_ADDRESS
    EEPROM := eeprom
    pin_level := fun _ => false
    pin_output := fun _ => false }

/-- A concrete device for examples: the power-on state over an erased EEPROM in which
register `i` of the local buffer holds `i % 256`. -/
def rampDevice : Device :=
  { powerOn (fun _ => 0xFF) with _regbuffer := fun i => i % 256 }

/-- The persisted control mask: in the mirrored and in the stored control register only
bits `0x02`, `0x04`, `0x08` may be set, that is, the bits of `0xF1` read back as `0`. -/
def ControlMaskOk (s : Device) : Prop :=
  s._regbuffer CONTROL_REG &&& 0xF1 = 0 ∧ s.EEPROM CONTROL_REG &&& 0xF1 = 0

/-! ## The older `controlUpdated` (`src/I2CSlaveMode.cpp`) -/

/-- The body of `switch (cur_control)` in the `controlUpdated` of the older source file
`src/I2CSlaveMode.cpp`: the same cases as `controlCase`, except that
`case LOAD_EEPROM_TO_LOCAL` is guarded by `if (!local_preserve)` alone. -/
def controlCaseOld (cntrl_reg_val perma_mask cur_control : Nat) (st : ControlFrame) :
    ControlFrame :=
  if cur_control = 0x00 then st
  else if cur_control = LOCAL_PRESERVE then
    { st with local_preserve := true }
  else if cur_control = I2C_SLAVE_ALT then
    { st with dev := { st.dev with _use_slave_alt := true } }
  else if cur_control = LOAD_EEPROM_TO_LOCAL then
    if st.local_preserve = false then
      { st with dev := { st.dev with
          _regbuffer := loadEepromToLocal st.dev.EEPROM st.dev._regbuffer } }
    else st
  else if cur_control = READ_FROM_EEPROM then
    { st with dev := { st.dev with _read_eeprom := true } }
  else if cur_control = READ_LOCATION then st
  else if cur_control = EEPROM_RESET then
    { st with dev := { st.dev with EEPROM := eepromReset perma_mask st.dev.EEPROM } }
  else if cur_control = LOAD_LOCAL_TO_EEPROM then
    { st with dev := { st.dev with
        EEPROM := loadLocalToEeprom cntrl_reg_val perma_mask st.dev._regbuffer
          st.dev.EEPROM } }
  else if cur_control = DEVICE_RESET then
    { st with dev := { st.dev with _device_reset := true } }
  else st

/-- The `while (control_mask > 0)` loop of the older `controlUpdated`, with
`control_mask` a byte. `none` when the fuel runs out with the mask still positive. -/
def controlLoopOld : Nat → Nat → Nat → Nat → Nat → ControlFrame → Option ControlFrame
  | 0, _, _, control_mask, _, st => if control_mask > 0 then none else some st
  | fuel + 1, cntrl_reg_val, perma_mask, control_mask, cur_control, st =>
    if control_mask > 0 then
      controlLoopOld fuel cntrl_reg_val perma_mask ((control_mask <<< 1) % 256)
        (((control_mask <<< 1) % 256) &&& cntrl_reg_val)
        (controlCaseOld cntrl_reg_val perma_mask cur_control st)
    else some st

/-- `I2CSlaveMode::controlUpdated(byte cr)` of the older source file
`src/I2CSlaveMode.cpp`. The fuel is the number of values a byte mask can take. -/
def controlUpdatedOld (cr : Nat) (s : Device) : Option Device :=
  let cntrl_reg_val := cr
  let control_mask := 0x01
  let perma_mask := 0x0E
  let s1 := { s with _read_eeprom := false, _use_slave_alt := false }
  (controlLoopOld 256 cntrl_reg_val perma_mask control_mask (control_mask &&& cntrl_reg_val)
      { local_preserve := false, dev := s1 }).map fun st =>
    storeControl cntrl_reg_val perma_mask st.dev

/-! ## Bit facts -/

theorem two_pow_and (k cr : Nat) :
    2 ^ k &&& cr = if cr.testBit k = true then 2 ^ k else 0 := by
  apply Nat.eq_of_testBit_eq
  intro i
  by_cases hb : cr.testBit k = true
  · simp only [hb, if_true, Nat.testBit_and, Nat.testBit_two_pow]
    by_cases hi : k = i
    · subst hi; simp [hb]
    · simp [hi]
  · simp only [hb, Nat.testBit_and, Nat.testBit_two_pow]
    by_cases hi : k = i
    · subst hi; simp [hb]
    · simp [hi]

theorem and_two_pow (k cr : Nat) :
    cr &&& 2 ^ k = if cr.testBit k = true then 2 ^ k else 0 := by
  rw [Nat.land_comm]; exact two_pow_and k cr

/-! ## Loops over cells -/

theorem EEPROM_update_eq_setCell (e : Nat → Nat) (idx val : Nat) :
    EEPROM_update e idx val = setCell e idx val := by
  unfold EEPROM_update EEPROM_read
  split
  · next h =>
    funext j
    unfold setCell
    split
    · next hj => rw [hj, h]
    · rfl
  · rfl

theorem forCount_setCell (g : Nat → Nat) (n : Nat) :
    ∀ (lo : Nat) (m : Nat → Nat) (j : Nat),
      forCount (fun i buf => setCell buf i (g i)) n lo m j
        = if lo ≤ j ∧ j < lo + n then g j else m j := by
  induction n with
  | zero =>
    intro lo m j
    have h : ¬ (lo ≤ j ∧ j < lo + 0) := by omega
    rw [forCount, if_neg h]
  | succ n ih =>
    intro lo m j
    rw [forCount, ih]
    unfold setCell
    by_cases h1 : lo + 1 ≤ j ∧ j < lo + 1 + n
    · have h2 : lo ≤ j ∧ j < lo + (n + 1) := by omega
      rw [if_pos h1, if_pos h2]
    · rw [if_neg h1]
      by_cases h3 : j = lo
      · have h2 : lo ≤ j ∧ j < lo + (n + 1) := by omega
        rw [if_pos h3, if_pos h2, h3]
      · have h2 : ¬ (lo ≤ j ∧ j < lo + (n + 1)) := by omega
        rw [if_neg h3, if_neg h2]

theorem controlUpdated_unroll (cr : Nat) (s : Device) :
    controlUpdated cr s = some (storeControl cr 0x0E
        (controlCase cr 0x0E (0x80 &&& cr) (controlCase cr 0x0E (0x40 &&& cr)
        (controlCase cr 0x0E (0x20 &&& cr) (controlCase cr 0x0E (0x10 &&& cr)
        (controlCase cr 0x0E (0x08 &&& cr) (controlCase cr 0x0E (0x04 &&& cr)
        (controlCase cr 0x0E (0x02 &&& cr) (controlCase cr 0x0E (0x01 &&& cr)
          { local_preserve := false,
            dev := { s with _read_eeprom := false, _use_slave_alt := false } })))))))).dev)
    := by
  rfl

/-! ## The bulk operations, cell by cell -/

theorem loadEepromToLocal_apply (e r : Nat → Nat) (j : Nat) :
    loadEepromToLocal e r j = if j < 256 then e j else r j := by
  simp only [loadEepromToLocal, forRange, EEPROM_read, NUM_REGISTERS, CONTROL_REG,
    Nat.sub_zero]
  rw [forCount_setCell]
  by_cases h : j < 256
  · rw [if_pos h, if_pos (by omega)]
  · rw [if_neg h, if_neg (by omega)]

theorem eepromReset_apply (pm : Nat) (e : Nat → Nat) (j : Nat) :
    eepromReset pm e j
      = if j = 0 then 4 &&& pm else if j = 1 then 8 else if j = 2 then 0
        else if 4 ≤ j ∧ j < 256 then 0 else e j := by
  have hb : (fun (i : Nat) (e' : Nat → Nat) =>
      EEPROM_update e' i (EEPROM_read (EEPROM_update (EEPROM_update
        (EEPROM_update e 0 (4 &&& pm)) 1 8) 2 0) 2))
      = (fun i e' => setCell e' i ((fun _ => 0) i)) := by
    funext i e'
    rw [EEPROM_update_eq_setCell, EEPROM_update_eq_setCell]
    simp [EEPROM_read, setCell]
  simp only [eepromReset, forRange, NUM_REGISTERS, CONTROL_REG, PC_START_REG, I2C_ADDR_REG,
    DEFAULT_VAL_REG, I2C_SLAVE_ADDRESS, REGISTERS_DEFAULT_VAL, CONTROL_DEFAULT_VAL,
    LOAD_EEPROM_TO_LOCAL, Nat.reduceSub]
  rw [hb, forCount_setCell]
  simp only [EEPROM_update_eq_setCell, setCell]
  by_cases h4 : 4 ≤ j ∧ j < 256
  · have h0 : j ≠ 0 := by omega
    have h1 : j ≠ 1 := by omega
    have h2 : j ≠ 2 := by omega
    rw [if_pos (by omega), if_neg h0, if_neg h1, if_neg h2, if_pos h4]
  · rw [if_neg (by omega)]
    by_cases h2 : j = 2
    · subst h2; simp
    · by_cases h1 : j = 1
      · subst h1; simp
      · by_cases h0 : j = 0
        · subst h0; simp
        · simp [h0, h1, h2, h4]

theorem loadLocalToEeprom_apply (cr pm : Nat) (r e : Nat → Nat) (j : Nat) :
    loadLocalToEeprom cr pm r e j
      = if j < 256 then (if j = 0 then cr &&& pm else r j) else e j := by
  have hb : (fun (i : Nat) (e' : Nat → Nat) =>
      if i ≠ 0 then EEPROM_update e' i (r i) else EEPROM_update e' i (cr &&& pm))
      = (fun i e' => setCell e' i ((fun k => if k = 0 then cr &&& pm else r k) i)) := by
    funext i e'
    by_cases h : i = 0
    · simp [h, EEPROM_update_eq_setCell]
    · simp [h, EEPROM_update_eq_setCell]
  simp only [loadLocalToEeprom, forRange, NUM_REGISTERS, CONTROL_REG, Nat.sub_zero]
  rw [hb, forCount_setCell]
  by_cases h : j < 256
  · rw [if_pos h, if_pos (by omega)]
  · rw [if_neg h, if_neg (by omega)]

/-! ## Closed form of `controlUpdated` -/

theorem mask01 (cr : Nat) : 0x01 &&& cr = if cr.testBit 0 = true then 0x01 else 0 :=
  two_pow_and 0 cr
theorem mask02 (cr : Nat) : 0x02 &&& cr = if cr.testBit 1 = true then 0x02 else 0 :=
  two_pow_and 1 cr
theorem mask04 (cr : Nat) : 0x04 &&& cr = if cr.testBit 2 = true then 0x04 else 0 :=
  two_pow_and 2 cr
theorem mask08 (cr : Nat) : 0x08 &&& cr = if cr.testBit 3 = true then 0x08 else 0 :=
  two_pow_and 3 cr
theorem mask10 (cr : Nat) : 0x10 &&& cr = if cr.testBit 4 = true then 0x10 else 0 :=
  two_pow_and 4 cr
theorem mask20 (cr : Nat) : 0x20 &&& cr = if cr.testBit 5 = true then 0x20 else 0 :=
  two_pow_and 5 cr
theorem mask40 (cr : Nat) : 0x40 &&& cr = if cr.testBit 6 = true then 0x40 else 0 :=
  two_pow_and 6 cr
theorem mask80 (cr : Nat) : 0x80 &&& cr = if cr.testBit 7 = true then 0x80 else 0 :=
  two_pow_and 7 cr

theorem controlCase_00 (cr pm : Nat) (st : ControlFrame) :
    controlCase cr pm 0x00 st = st := rfl

theorem controlCase_01 (cr pm : Nat) (st : ControlFrame) :
    controlCase cr pm 0x01 st = { st with local_preserve := true } := rfl

theorem controlCase_02 (cr pm : Nat) (st : ControlFrame) :
    controlCase cr pm 0x02 st = { st with dev := { st.dev with _use_slave_alt := true } } :=
  rfl

theorem controlCase_04 (cr pm : Nat) (st : ControlFrame) :
    controlCase cr pm 0x04 st
      = if st.local_preserve = false ∧ cr &&& 0x40 = 0 then
          { st with dev := { st.dev with
              _regbuffer := loadEepromToLocal st.dev.EEPROM st.dev._regbuffer } }
        else st := rfl

theorem controlCase_08 (cr pm : Nat) (st : ControlFrame) :
    controlCase cr pm 0x08 st = { st with dev := { st.dev with _read_eeprom := true } } :=
  rfl

theorem controlCase_10 (cr pm : Nat) (st : ControlFrame) :
    controlCase cr pm 0x10 st = st := rfl

theorem controlCase_20 (cr pm : Nat) (st : ControlFrame) :
    controlCase cr pm 0x20 st
      = { st with dev := { st.dev with EEPROM := eepromReset pm st.dev.EEPROM } } := rfl

theorem controlCase_40 (cr pm : Nat) (st : ControlFrame) :
    controlCase cr pm 0x40 st
      = { st with dev := { st.dev with
            EEPROM := loadLocalToEeprom cr pm st.dev._regbuffer st.dev.EEPROM } } := rfl

theorem controlCase_80 (cr pm : Nat) (st : ControlFrame) :
    controlCase cr pm 0x80 st = { st with dev := { st.dev with _device_reset := true } } :=
  rfl

/-- What `controlUpdated cr` leaves behind, field by field: the flags follow bits 1, 3
and 7; the register buffer is reloaded (bit 2, unless bit 0 or bit 6 is set) and its
control cell overwritten; the EEPROM is reset (bit 5) and then stored to (bit 6). -/
theorem controlUpdated_eq (cr : Nat) (s : Device) :
    controlUpdated cr s = some { s with
      _read_eeprom := cr.testBit 3,
      _use_slave_alt := cr.testBit 1,
      _device_reset := s._device_reset || cr.testBit 7,
      _regbuffer := setCell
        (if cr.testBit 2 = true ∧ cr.testBit 0 = false ∧ cr.testBit 6 = false
          then loadEepromToLocal s.EEPROM s._regbuffer else s._regbuffer)
        CONTROL_REG (cr &&& 0x0E),
      EEPROM :=
        if cr.testBit 6 = true then
          loadLocalToEeprom cr 0x0E s._regbuffer
            (if cr.testBit 5 = true then eepromReset 0x0E s.EEPROM else s.EEPROM)
        else if cr.testBit 5 = true then eepromReset 0x0E s.EEPROM else s.EEPROM } := by
  rw [controlUpdated_unroll]
  have h64 : cr &&& 64 = if cr.testBit 6 = true then 64 else 0 := and_two_pow 6 cr
  have hne : ((64 : Nat) = 0) = False := by simp
  simp only [mask01, mask02, mask04, mask08, mask10, mask20, mask40, mask80]
  cases h0 : cr.testBit 0
  all_goals cases h1 : cr.testBit 1
  all_goals cases h2 : cr.testBit 2
  all_goals cases h3 : cr.testBit 3
  all_goals cases h4 : cr.testBit 4
  all_goals cases h5 : cr.testBit 5
  all_goals cases h6 : cr.testBit 6
  all_goals cases h7 : cr.testBit 7
  all_goals simp only [h64, h6, hne, if_true, if_false, Bool.false_eq_true,
    Bool.true_eq_false, controlCase_00,
    controlCase_01, controlCase_02, controlCase_04, controlCase_08, controlCase_10,
    controlCase_20, controlCase_40, controlCase_80, true_and, and_true, and_false,
    false_and, and_self, Bool.or_true, Bool.or_false, storeControl]

/-- The two arrays after `controlUpdated cr`, read off the closed form. -/
theorem controlUpdated_fields (cr : Nat) (s : Device) :
    ∃ s', controlUpdated cr s = some s' ∧
      s'._regbuffer = setCell
        (if cr.testBit 2 = true ∧ cr.testBit 0 = false ∧ cr.testBit 6 = false
          then loadEepromToLocal s.EEPROM s._regbuffer else s._regbuffer)
        CONTROL_REG (cr &&& 0x0E) ∧
      s'.EEPROM =
        (if cr.testBit 6 = true then
          loadLocalToEeprom cr 0x0E s._regbuffer
            (if cr.testBit 5 = true then eepromReset 0x0E s.EEPROM else s.EEPROM)
        else if cr.testBit 5 = true then eepromReset 0x0E s.EEPROM else s.EEPROM) :=
  ⟨_, controlUpdated_eq cr s, rfl, rfl⟩

theorem testBit_of_and_ne (k raw : Nat) (h : raw &&& 2 ^ k ≠ 0) : raw.testBit k = true := by
  rw [and_two_pow] at h
  by_contra hb
  exact h (if_neg hb)

theorem testBit_of_and_eq (k raw : Nat) (h : raw &&& 2 ^ k = 0) : raw.testBit k = false := by
  rw [and_two_pow] at h
  cases hb : raw.testBit k
  · rfl
  · rw [if_pos hb] at h
    exact absurd h (Nat.pos_iff_ne_zero.mp (Nat.pow_pos (by decide)))

theorem and_ne_iff_testBit (k raw : Nat) : raw &&& 2 ^ k ≠ 0 ↔ raw.testBit k = true := by
  constructor
  · exact testBit_of_and_ne k raw
  · intro hb h
    rw [testBit_of_and_eq k raw h] at hb
    exact Bool.false_ne_true hb

theorem or_and_self_mask (x m : Nat) : (x ||| m) &&& m = m := by
  apply Nat.eq_of_testBit_eq
  intro i
  rw [Nat.testBit_and, Nat.testBit_or]
  cases x.testBit i <;> cases m.testBit i <;> rfl

theorem and_retain_and_triggers (x : Nat) : (x &&& 0x0E) &&& 0xF1 = 0 := by
  rw [Nat.land_assoc]
  exact Nat.and_zero x

/-! ## The bus write of one data byte -/

theorem receiveEvent_pair (s : Device) (a v : Nat) (ha : a < 256) (hv : v < 256) :
    receiveEvent 2 [a, v] s =
      if a = 0 then
        controlUpdated v { s with _reg := 0, _regbuffer := setCell s._regbuffer 0 v }
      else some { s with _reg := 0, _regbuffer := setCell s._regbuffer a v } := by
  have h1 : ¬ ((2 : Int) = 1) := by decide
  have hs : setCell s._regbuffer 0 v 0 = v := by simp [setCell]
  simp only [receiveEvent, if_neg h1, receiveLoop, NUM_REGISTERS, CONTROL_REG,
    Nat.mod_eq_of_lt ha, Nat.mod_eq_of_lt hv]
  by_cases h : a = 0
  · subst h
    simp only [if_true, hs]
    cases controlUpdated v { s with _reg := 0, _regbuffer := setCell s._regbuffer 0 v } <;> rfl
  · simp only [if_neg h]
    rfl

/-! ## Properties of the specification -/

/-- C1: for every device state, every address `a` in `[0,255]` and every byte `v`, after
the bus write transaction `[a, v]` the local-buffer read of register `a`
(`readData(a, false)`, `getRegister(a)`) returns `v` when `a ≠ 0` and `v & 0x0E`
when `a = 0`. -/
theorem C1_write_then_local_read (s : Device) (a v : Nat) (ha : a < 256) (hv : v < 256) :
    ∃ s', receiveEvent 2 [a, v] s = some s' ∧
      readData s' a false = (if a = 0 then v &&& 0x0E else v) ∧
      getRegister s' a = (if a = 0 then v &&& 0x0E else v) := by
  rw [receiveEvent_pair s a v ha hv]
  by_cases h : a = 0
  · subst h
    rw [if_pos rfl, controlUpdated_eq]
    refine ⟨_, rfl, ?_, ?_⟩ <;> simp [readData, getRegister, setCell]
  · rw [if_neg h]
    refine ⟨_, rfl, ?_, ?_⟩ <;> simp [readData, getRegister, setCell, h]

/-- Witness for C1: the write `[0x00, 0xFF]` on the power-on state over an erased EEPROM. -/
theorem C1_write_then_local_read_witness :
    (0 : Nat) < 256 ∧ (0xFF : Nat) < 256 ∧
    ∃ s', receiveEvent 2 [0, 0xFF] (powerOn (fun _ => 0xFF)) = some s' ∧
      readData s' 0 false = (if (0 : Nat) = 0 then 0xFF &&& 0x0E else 0xFF) ∧
      getRegister s' 0 = (if (0 : Nat) = 0 then 0xFF &&& 0x0E else 0xFF) :=
  ⟨by decide, by decide,
    C1_write_then_local_read (powerOn (fun _ => 0xFF)) 0 0xFF (by decide) (by decide)⟩

/-- C2: for every device state and every control byte `raw` with bit `0x04` set together
with bit `0x01` or bit `0x40`, `controlUpdated(raw)` performs no reload from storage:
registers `1..255` of the local buffer are what they were before the write. -/
theorem C2_no_reload_when_preserved (s : Device) (raw : Nat) (h4 : raw &&& 0x04 ≠ 0)
    (h : raw &&& 0x01 ≠ 0 ∨ raw &&& 0x40 ≠ 0) :
    ∃ s', controlUpdated raw s = some s' ∧
      ∀ i, 1 ≤ i → i ≤ 255 → s'._regbuffer i = s._regbuffer i := by
  have _hb2 : raw.testBit 2 = true := testBit_of_and_ne 2 raw h4
  have hc : ¬ (raw.testBit 2 = true ∧ raw.testBit 0 = false ∧ raw.testBit 6 = false) := by
    rcases h with h | h
    · have hb := testBit_of_and_ne 0 raw h
      simp [hb]
    · have hb := testBit_of_and_ne 6 raw h
      simp [hb]
  refine ⟨_, controlUpdated_eq raw s, ?_⟩
  intro i hi _
  have hi0 : i ≠ 0 := by omega
  simp only [if_neg hc, setCell, CONTROL_REG, if_neg hi0]

/-- Witness for C2: the control byte `0x44` on the power-on state over an erased EEPROM. -/
theorem C2_no_reload_when_preserved_witness :
    (0x44 &&& 0x04 ≠ 0) ∧ (0x44 &&& 0x01 ≠ 0 ∨ 0x44 &&& 0x40 ≠ 0) ∧
    ∃ s', controlUpdated 0x44 (powerOn (fun _ => 0xFF)) = some s' ∧
      ∀ i, 1 ≤ i → i ≤ 255 → s'._regbuffer i = (powerOn (fun _ => 0xFF))._regbuffer i :=
  ⟨by decide, by decide,
    C2_no_reload_when_preserved (powerOn (fun _ => 0xFF)) 0x44 (by decide) (by decide)⟩

/-- C3: for every device state and every control byte `raw` with bit `0x20` set and bit
`0x40` clear, after `controlUpdated(raw)` the EEPROM holds the masked default control
value `CONTROL_DEFAULT_VAL & 0x0E = 0x04` in cell 0, the compiled-in address `0x08` in
cell 1, `0x00` in cell 2 and the default fill value `0x00` in every cell `4..255`,
whatever cell 2 held before. -/
theorem C3_store_reset_defaults (s : Device) (raw : Nat) (h20 : raw &&& 0x20 ≠ 0)
    (h40 : raw &&& 0x40 = 0) :
    ∃ s', controlUpdated raw s = some s' ∧
      s'.EEPROM 0 = CONTROL_DEFAULT_VAL &&& 0x0E ∧ s'.EEPROM 0 = 0x04 ∧
      s'.EEPROM 1 = I2C_SLAVE_ADDRESS ∧ s'.EEPROM 2 = 0x00 ∧
      ∀ i, 4 ≤ i → i ≤ 255 → s'.EEPROM i = REGISTERS_DEFAULT_VAL := by
  have hb5 : raw.testBit 5 = true := testBit_of_and_ne 5 raw h20
  have hb6 : raw.testBit 6 = false := testBit_of_and_eq 6 raw h40
  have h414 : (4 : Nat) &&& 14 = 4 := by decide
  refine ⟨_, controlUpdated_eq raw s, ?_, ?_, ?_, ?_, ?_⟩
  · simp [hb5, hb6, eepromReset_apply]
  · simp [hb5, hb6, eepromReset_apply, h414]
  · simp [hb5, hb6, eepromReset_apply]
  · simp [hb5, hb6, eepromReset_apply]
  · intro i h4 h255
    have h0 : i ≠ 0 := by omega
    have h1 : i ≠ 1 := by omega
    have h2 : i ≠ 2 := by omega
    have hr : 4 ≤ i ∧ i < 256 := by omega
    simp [hb5, hb6, eepromReset_apply, h0, h1, h2, hr]

/-- Witness for C3: the control byte `0x20` on the power-on state over an erased EEPROM. -/
theorem C3_store_reset_defaults_witness :
    (0x20 &&& 0x20 ≠ 0) ∧ (0x20 &&& 0x40 = 0) ∧
    ∃ s', controlUpdated 0x20 (powerOn (fun _ => 0xFF)) = some s' ∧
      s'.EEPROM 0 = CONTROL_DEFAULT_VAL &&& 0x0E ∧ s'.EEPROM 0 = 0x04 ∧
      s'.EEPROM 1 = I2C_SLAVE_ADDRESS ∧ s'.EEPROM 2 = 0x00 ∧
      ∀ i, 4 ≤ i → i ≤ 255 → s'.EEPROM i = REGISTERS_DEFAULT_VAL :=
  ⟨by decide, by decide,
    C3_store_reset_defaults (powerOn (fun _ => 0xFF)) 0x20 (by decide) (by decide)⟩

/-- C4: for every device state and every byte `v` with bit `0x08` set, after the bus
write `[0x00, v]` the next bus read (`sendEvent`) returns `EEPROM[0] | 0x10`, with
`EEPROM[0]` the storage control cell as it stands after the write; the returned byte
always has bit `0x10` set. -/
theorem C4_storage_read_of_control (s : Device) (v : Nat) (hv : v < 256)
    (h8 : v &&& 0x08 ≠ 0) :
    ∃ s', receiveEvent 2 [0x00, v] s = some s' ∧
      (sendEvent s').2 = s'.EEPROM 0 ||| 0x10 ∧
      (sendEvent s').2 &&& 0x10 = 0x10 := by
  have hb3 : v.testBit 3 = true := testBit_of_and_ne 3 v h8
  rw [receiveEvent_pair s 0 v (by decide) hv, if_pos rfl, controlUpdated_eq]
  refine ⟨_, rfl, ?_, ?_⟩
  · simp [sendEvent, readData, hb3, EEPROM_read]
  · simp only [sendEvent, readData, hb3, EEPROM_read]
    simp only [Int.zero_emod, Int.toNat_zero, if_true, CONTROL_REG]
    exact or_and_self_mask _ 0x10

/-- Witness for C4: the write `[0x00, 0x08]` on the power-on state over an erased EEPROM. -/
theorem C4_storage_read_of_control_witness :
    (0x08 : Nat) < 256 ∧ (0x08 &&& 0x08 ≠ 0) ∧
    ∃ s', receiveEvent 2 [0x00, 0x08] (powerOn (fun _ => 0xFF)) = some s' ∧
      (sendEvent s').2 = s'.EEPROM 0 ||| 0x10 ∧
      (sendEvent s').2 &&& 0x10 = 0x10 :=
  ⟨by decide, by decide,
    C4_storage_read_of_control (powerOn (fun _ => 0xFF)) 0x08 (by decide) (by decide)⟩

/-- The bus write `[0x00, v]`: the data byte lands in register 0 and is applied as a
control byte. -/
theorem receiveEvent_control (s : Device) (v : Nat) (hv : v < 256) :
    ∃ s', receiveEvent 2 [0x00, v] s = some s' ∧
      controlUpdated v { s with _reg := 0, _regbuffer := setCell s._regbuffer 0 v }
        = some s' := by
  rw [receiveEvent_pair s 0 v (by decide) hv, if_pos rfl, controlUpdated_eq]
  exact ⟨_, rfl, rfl⟩

/-- The two writes of the example scenario, `[0x00, 0x04]` then `[0x00, 0x08]`, on a
device whose EEPROM is all zero: the states they produce and the byte the next bus read
returns. -/
theorem example_scenario (s : Device) (hz : ∀ i, s.EEPROM i = 0) :
    ∃ s1 s2, receiveEvent 2 [0x00, 0x04] s = some s1 ∧
      (∀ i, 1 ≤ i → i ≤ 255 → s1._regbuffer i = 0) ∧ s1._regbuffer 0 = 0x04 ∧
      receiveEvent 2 [0x00, 0x08] s1 = some s2 ∧
      s2._read_eeprom = true ∧ s2.EEPROM 0 = 0x00 ∧ (sendEvent s2).2 = 0x10 := by
  have b40 : Nat.testBit 4 0 = false := by decide
  have b42 : Nat.testBit 4 2 = true := by decide
  have b45 : Nat.testBit 4 5 = false := by decide
  have b46 : Nat.testBit 4 6 = false := by decide
  have b83 : Nat.testBit 8 3 = true := by decide
  have b85 : Nat.testBit 8 5 = false := by decide
  have b86 : Nat.testBit 8 6 = false := by decide
  have h414 : (4 : Nat) &&& 14 = 4 := by decide
  obtain ⟨s1, e1, c1⟩ := receiveEvent_control s 4 (by decide)
  obtain ⟨s2, e2, c2⟩ := receiveEvent_control s1 8 (by decide)
  rw [controlUpdated_eq] at c1 c2
  cases c1
  cases c2
  refine ⟨_, _, e1, ?_, ?_, e2, ?_, ?_, ?_⟩
  · intro i h1 h255
    have h0 : i ≠ 0 := by omega
    have hlt : i < 256 := by omega
    simp [b40, b42, b46, setCell, h0, loadEepromToLocal_apply, hlt, hz]
  · simp [setCell, h414]
  · simp [b83]
  · simp [b85, b86, b45, b46, hz]
  · simp [sendEvent, readData, EEPROM_read, b83, b85, b86, b45, b46, hz]

/-- C5 fails as stated: on the power-on state over an all-zero EEPROM, after the bus
writes `[0x00, 0x04]` and `[0x00, 0x08]` the bus read of register 0 does not return
`0x14`. -/
theorem C5_example_counterexample :
    ¬ ∃ s1 s2, receiveEvent 2 [0x00, 0x04] (powerOn (fun _ => 0)) = some s1 ∧
        receiveEvent 2 [0x00, 0x08] s1 = some s2 ∧ (sendEvent s2).2 = 0x14 := by
  rintro ⟨s1, s2, h1, h2, h3⟩
  obtain ⟨t1, t2, e1, _, _, e2, _, _, e3⟩ :=
    example_scenario (powerOn (fun _ => 0)) (fun _ => rfl)
  rw [e1] at h1
  cases h1
  rw [e2] at h2
  cases h2
  rw [e3] at h3
  exact absurd h3 (by decide)

/-- C5, amended: starting from an EEPROM that is all zero, after the bus write
`[0x00, 0x04]` the local registers `1..255` are all zero and register 0 is `0x04`; after
the further bus write `[0x00, 0x08]` the read-from-EEPROM flag is set, the storage
control cell is still `0x00`, and a bus read of register 0 returns
`0x10 = EEPROM[0] | 0x10 = 0x00 | 0x10`. -/
theorem C5_example_amended (s : Device) (hz : ∀ i, s.EEPROM i = 0) :
    ∃ s1 s2, receiveEvent 2 [0x00, 0x04] s = some s1 ∧
      (∀ i, 1 ≤ i → i ≤ 255 → s1._regbuffer i = 0) ∧ s1._regbuffer 0 = 0x04 ∧
      receiveEvent 2 [0x00, 0x08] s1 = some s2 ∧
      s2._read_eeprom = true ∧ s2.EEPROM 0 = 0x00 ∧
      (sendEvent s2).2 = 0x10 ∧ (sendEvent s2).2 = s2.EEPROM 0 ||| 0x10 := by
  obtain ⟨s1, s2, e1, r1, r0, e2, f, z, b⟩ := example_scenario s hz
  refine ⟨s1, s2, e1, r1, r0, e2, f, z, b, ?_⟩
  rw [b, z]
  decide

/-- Witness for C5, amended: the power-on state over an all-zero EEPROM. -/
theorem C5_example_amended_witness :
    (∀ i, (powerOn (fun _ => 0)).EEPROM i = 0) ∧
    ∃ s1 s2, receiveEvent 2 [0x00, 0x04] (powerOn (fun _ => 0)) = some s1 ∧
      (∀ i, 1 ≤ i → i ≤ 255 → s1._regbuffer i = 0) ∧ s1._regbuffer 0 = 0x04 ∧
      receiveEvent 2 [0x00, 0x08] s1 = some s2 ∧
      s2._read_eeprom = true ∧ s2.EEPROM 0 = 0x00 ∧
      (sendEvent s2).2 = 0x10 ∧ (sendEvent s2).2 = s2.EEPROM 0 ||| 0x10 :=
  ⟨fun _ => rfl, C5_example_amended (powerOn (fun _ => 0)) (fun _ => rfl)⟩

/-- After `controlUpdated`, the control cell of the register buffer satisfies the mask,
and so does the control cell of the EEPROM when it did before. -/
theorem controlUpdated_mask (cr : Nat) (s : Device) :
    ∃ s', controlUpdated cr s = some s' ∧ s'._regbuffer 0 &&& 0xF1 = 0 ∧
      (s'.EEPROM 0 = s.EEPROM 0 ∨ s'.EEPROM 0 &&& 0xF1 = 0) := by
  refine ⟨_, controlUpdated_eq cr s, ?_, ?_⟩
  · simp only [setCell, CONTROL_REG, if_true]
    exact and_retain_and_triggers cr
  · cases h6 : cr.testBit 6
    · cases h5 : cr.testBit 5
      · left; simp
      · right
        simp only [Bool.false_eq_true, if_false, if_true, eepromReset_apply]
        decide
    · right
      simp only [if_true, loadLocalToEeprom_apply]
      exact and_retain_and_triggers cr

theorem receiveLoop_mask (wire : List Nat) :
    ∀ (rx : Nat) (s : Device), ControlMaskOk s →
      ∃ s', receiveLoop wire rx s = some s' ∧ ControlMaskOk s' := by
  induction wire with
  | nil => intro rx s h; exact ⟨s, rfl, h⟩
  | cons b rest ih =>
    intro rx s h
    simp only [receiveLoop]
    by_cases h0 : rx % NUM_REGISTERS = CONTROL_REG
    · rw [if_pos h0]
      obtain ⟨s2, e2, r2, m2⟩ := controlUpdated_mask
        (setCell s._regbuffer (rx % NUM_REGISTERS) (b % 256) (rx % NUM_REGISTERS))
        { s with _regbuffer := setCell s._regbuffer (rx % NUM_REGISTERS) (b % 256) }
      rw [e2]
      apply ih
      refine ⟨r2, ?_⟩
      rcases m2 with m2 | m2
      · rw [show s2.EEPROM CONTROL_REG = s2.EEPROM 0 from rfl, m2]; exact h.2
      · exact m2
    · rw [if_neg h0]
      apply ih
      refine ⟨?_, h.2⟩
      have hne : ¬ (CONTROL_REG = rx % NUM_REGISTERS) := fun e => h0 e.symm
      simp only [setCell, if_neg hne]
      exact h.1

/-- C6: the persisted control mask (`_regbuffer[0] & 0xF1 = 0` and
`EEPROM[0] & 0xF1 = 0`) is preserved by every bus write transaction (`receiveEvent`, any
length and data), by every bus read (`sendEvent`) and by `resetIfRequested`; moreover
`controlUpdated(raw)` establishes `_regbuffer[0] & 0xF1 = 0` from any state, and the
EEPROM control cell it leaves, like the one each `case` of its switch leaves, is either
untouched or satisfies the mask. -/
theorem C6_control_mask_invariant (s t : Device) (len : Int) (wire : List Nat)
    (raw cur : Nat) (st : ControlFrame) (h : ControlMaskOk s) :
    (∃ s', receiveEvent len wire s = some s' ∧ ControlMaskOk s') ∧
    ControlMaskOk (sendEvent s).1 ∧
    ControlMaskOk (resetIfRequested s) ∧
    (∃ t', controlUpdated raw t = some t' ∧ t'._regbuffer 0 &&& 0xF1 = 0 ∧
      (t'.EEPROM 0 = t.EEPROM 0 ∨ t'.EEPROM 0 &&& 0xF1 = 0)) ∧
    ((controlCase raw 0x0E cur st).dev.EEPROM 0 = st.dev.EEPROM 0 ∨
      (controlCase raw 0x0E cur st).dev.EEPROM 0 &&& 0xF1 = 0) := by
  refine ⟨?_, h, ?_, controlUpdated_mask raw t, ?_⟩
  · unfold receiveEvent
    by_cases h1 : len = 1
    · rw [if_pos h1]; exact ⟨_, rfl, h⟩
    · rw [if_neg h1]
      cases wire with
      | nil => exact ⟨_, rfl, h⟩
      | cons b rest => exact receiveLoop_mask rest (b % 256) _ h
  · unfold resetIfRequested
    split
    · exact h
    · exact h
  · unfold controlCase
    split_ifs
    all_goals first
      | (left; with_reducible rfl)
      | (right; simp only [eepromReset_apply, if_true]; decide)
      | (right; simp only [loadLocalToEeprom_apply, if_true]
         exact and_retain_and_triggers raw)

/-- Witness for C6: the three-byte write `[0xFF, 0x07, 0xF5]` on the power-on state over
an EEPROM whose cells are all `0x04`. -/
theorem C6_control_mask_invariant_witness :
    ControlMaskOk (powerOn (fun _ => 0x04)) ∧
    ∃ s', receiveEvent 3 [0xFF, 0x07, 0xF5] (powerOn (fun _ => 0x04)) = some s' ∧
      ControlMaskOk s' :=
  ⟨⟨by decide, by decide⟩,
    (C6_control_mask_invariant (powerOn (fun _ => 0x04)) (powerOn (fun _ => 0x04)) 3
      [0xFF, 0x07, 0xF5] 0 0 ⟨false, powerOn (fun _ => 0x04)⟩ ⟨by decide, by decide⟩).1⟩

/-- C7: for every device state and every control byte `raw` with bit `0x40` set,
whatever the other bits, after `controlUpdated(raw)` the EEPROM cell `i` equals the
pre-write register `i` for every `i` in `1..255`, and EEPROM cell 0 equals
`raw & 0x0E`. -/
theorem C7_store_local_to_eeprom (s : Device) (raw : Nat) (h40 : raw &&& 0x40 ≠ 0) :
    ∃ s', controlUpdated raw s = some s' ∧
      (∀ i, 1 ≤ i → i ≤ 255 → s'.EEPROM i = s._regbuffer i) ∧
      s'.EEPROM 0 = raw &&& 0x0E := by
  have hb6 : raw.testBit 6 = true := testBit_of_and_ne 6 raw h40
  refine ⟨_, controlUpdated_eq raw s, ?_, ?_⟩
  · intro i h1 h255
    have h0 : i ≠ 0 := by omega
    have hlt : i < 256 := by omega
    simp only [hb6, if_true, loadLocalToEeprom_apply, if_pos hlt, if_neg h0]
  · simp only [hb6, if_true, loadLocalToEeprom_apply]
    rfl

/-- Witness for C7: the control byte `0x64` (store, reset and reload bits together) on
the power-on state over an erased EEPROM. -/
theorem C7_store_local_to_eeprom_witness :
    (0x64 &&& 0x40 ≠ 0) ∧
    ∃ s', controlUpdated 0x64 (powerOn (fun _ => 0xFF)) = some s' ∧
      (∀ i, 1 ≤ i → i ≤ 255 → s'.EEPROM i = (powerOn (fun _ => 0xFF))._regbuffer i) ∧
      s'.EEPROM 0 = 0x64 &&& 0x0E :=
  ⟨by decide, C7_store_local_to_eeprom (powerOn (fun _ => 0xFF)) 0x64 (by decide)⟩

/-- C8: for every device state and every control byte `raw` with bit `0x04` set and
bits `0x01` and `0x40` clear, after `controlUpdated(raw)` register `i` of the local
buffer equals the pre-write EEPROM cell `i` for every `i` in `1..255` (also when bit
`0x20` is set in the same byte), and register 0 equals `raw & 0x0E`. -/
theorem C8_reload_from_eeprom (s : Device) (raw : Nat) (h4 : raw &&& 0x04 ≠ 0)
    (h1 : raw &&& 0x01 = 0) (h40 : raw &&& 0x40 = 0) :
    ∃ s', controlUpdated raw s = some s' ∧
      (∀ i, 1 ≤ i → i ≤ 255 → s'._regbuffer i = s.EEPROM i) ∧
      s'._regbuffer 0 = raw &&& 0x0E := by
  have hb2 : raw.testBit 2 = true := testBit_of_and_ne 2 raw h4
  have hb0 : raw.testBit 0 = false := testBit_of_and_eq 0 raw h1
  have hb6 : raw.testBit 6 = false := testBit_of_and_eq 6 raw h40
  refine ⟨_, controlUpdated_eq raw s, ?_, ?_⟩
  · intro i hi h255
    have h0 : i ≠ 0 := by omega
    have hlt : i < 256 := by omega
    simp only [hb2, hb0, hb6, and_self, if_true, setCell, CONTROL_REG, if_neg h0,
      loadEepromToLocal_apply, if_pos hlt]
  · simp only [setCell, CONTROL_REG, if_true]

/-- Witness for C8: the control byte `0x24` (reload and reset together) on the power-on
state over an erased EEPROM. -/
theorem C8_reload_from_eeprom_witness :
    (0x24 &&& 0x04 ≠ 0) ∧ (0x24 &&& 0x01 = 0) ∧ (0x24 &&& 0x40 = 0) ∧
    ∃ s', controlUpdated 0x24 (powerOn (fun _ => 0xFF)) = some s' ∧
      (∀ i, 1 ≤ i → i ≤ 255 → s'._regbuffer i = (powerOn (fun _ => 0xFF)).EEPROM i) ∧
      s'._regbuffer 0 = 0x24 &&& 0x0E :=
  ⟨by decide, by decide, by decide,
    C8_reload_from_eeprom (powerOn (fun _ => 0xFF)) 0x24 (by decide) (by decide)
      (by decide)⟩

/-- C9: mode flags do not carry across control writes: for every device state and every
control byte `raw`, after `controlUpdated(raw)` the flag `_read_eeprom` is true exactly
when `raw` has bit `0x08` set and `_use_slave_alt` is true exactly when `raw` has bit
`0x02` set, whatever the flags were before. -/
theorem C9_flags_follow_last_write (s : Device) (raw : Nat) :
    ∃ s', controlUpdated raw s = some s' ∧
      (s'._read_eeprom = true ↔ raw &&& 0x08 ≠ 0) ∧
      (s'._use_slave_alt = true ↔ raw &&& 0x02 ≠ 0) :=
  ⟨_, controlUpdated_eq raw s, (and_ne_iff_testBit 3 raw).symm,
    (and_ne_iff_testBit 1 raw).symm⟩

/-- C10: start-up address resolution. For every initial state and every constructor
argument, with `s1` the state after the constructor has applied
`controlUpdated(EEPROM[0])`: if `_use_slave_alt` is set the resolved bus address is
`EEPROM[1]` (as it stands in `s1`) when `0x03 ≤ EEPROM[1] ≤ 0x77` and the compiled-in
default `0x08` otherwise, so it lies in `[0x03, 0x77]`; if it is not set the resolved
address is the constructor argument. -/
theorem C10_startup_address (s : Device) (address : Nat) (pin : Int) :
    ∃ s1 s', controlUpdated (s.EEPROM 0)
        (pinModeOutput pin (digitalWrite pin HIGH { s with _reset_pin := pin })) = some s1 ∧
      I2CSlaveMode address pin s = some s' ∧
      s'.EEPROM = s1.EEPROM ∧ s'._use_slave_alt = s1._use_slave_alt ∧
      getAddress s' =
        (if s1._use_slave_alt = true then
          (if 0x03 ≤ s1.EEPROM 1 ∧ s1.EEPROM 1 ≤ 0x77 then s1.EEPROM 1
           else I2C_SLAVE_ADDRESS)
         else address) ∧
      (s1._use_slave_alt = false ∨ (0x03 ≤ getAddress s' ∧ getAddress s' ≤ 0x77)) := by
  obtain ⟨s1, e1⟩ : ∃ s1, controlUpdated (s.EEPROM 0)
      (pinModeOutput pin (digitalWrite pin HIGH { s with _reset_pin := pin })) = some s1 :=
    ⟨_, controlUpdated_eq _ _⟩
  have e2 : I2CSlaveMode address pin s = some
      (if ({ s1 with _i2c_slave_address := address } : Device)._use_slave_alt = true then
        if s1.EEPROM 1 < 0x03 ∨ s1.EEPROM 1 > 0x77 then
          { s1 with _i2c_slave_address := I2C_SLAVE_ADDRESS }
        else { s1 with _i2c_slave_address := s1.EEPROM 1 }
       else { s1 with _i2c_slave_address := address }) := by
    unfold I2CSlaveMode
    simp only [EEPROM_read, CONTROL_REG, I2C_ADDR_REG]
    have e1' : controlUpdated (s.EEPROM 0)
        (pinModeOutput pin (digitalWrite pin HIGH { s with _reset_pin := pin })) = some s1 :=
      e1
    erw [e1']
    rfl
  refine ⟨s1, _, e1, e2, ?_⟩
  cases ha : s1._use_slave_alt
  · simp [ha, getAddress]
  · by_cases hr : s1.EEPROM 1 < 0x03 ∨ s1.EEPROM 1 > 0x77
    · have hr' : ¬ (0x03 ≤ s1.EEPROM 1 ∧ s1.EEPROM 1 ≤ 0x77) := by omega
      simp [ha, getAddress, hr, hr', I2C_SLAVE_ADDRESS]
    · have hr' : 0x03 ≤ s1.EEPROM 1 ∧ s1.EEPROM 1 ≤ 0x77 := by omega
      simp [ha, getAddress, hr, hr']

/-! ## The device-reset flag -/

theorem receiveLoop_device_reset (wire : List Nat) :
    ∀ (rx : Nat) (s : Device), s._device_reset = true →
      ∃ s', receiveLoop wire rx s = some s' ∧ s'._device_reset = true := by
  induction wire with
  | nil => intro rx s h; exact ⟨s, rfl, h⟩
  | cons b rest ih =>
    intro rx s h
    simp only [receiveLoop]
    by_cases h0 : rx % NUM_REGISTERS = CONTROL_REG
    · rw [if_pos h0, controlUpdated_eq]
      apply ih
      show (s._device_reset || _) = true
      rw [h]
      rfl
    · rw [if_neg h0]
      exact ih _ _ h

theorem resetIfRequested_armed (s : Device) (h : s._device_reset = true) :
    (resetIfRequested s)._device_reset = true ∧
    (resetIfRequested s)._reset_pin = s._reset_pin ∧
    (resetIfRequested s).pin_level s._reset_pin = LOW := by
  unfold resetIfRequested
  rw [if_pos h]
  refine ⟨h, rfl, ?_⟩
  show (if s._reset_pin = s._reset_pin then LOW else s.pin_level s._reset_pin) = LOW
  rw [if_pos rfl]

theorem resetIfRequested_iterate (n : Nat) (s : Device) (h : s._device_reset = true) :
    (resetIfRequested^[n + 1] s)._device_reset = true ∧
    (resetIfRequested^[n + 1] s)._reset_pin = s._reset_pin ∧
    (resetIfRequested^[n + 1] s).pin_level s._reset_pin = LOW := by
  induction n with
  | zero => exact resetIfRequested_armed s h
  | succ n ih =>
    obtain ⟨hf, hp, _⟩ := ih
    have e : resetIfRequested^[n + 1 + 1] s = resetIfRequested (resetIfRequested^[n + 1] s) :=
      Function.iterate_succ_apply' resetIfRequested (n + 1) s
    obtain ⟨a1, a2, a3⟩ := resetIfRequested_armed (resetIfRequested^[n + 1] s) hf
    rw [e]
    refine ⟨a1, a2.trans hp, ?_⟩
    rw [← hp]
    exact a3

/-- C11: the pending device-reset flag is never cleared. After `controlUpdated(raw)` the
flag equals (flag before) OR (`raw` has bit `0x80`); a bus write, a bus read and
`resetIfRequested` keep a set flag set; `resetIfRequested` drives the reset pin `LOW`
when the flag is set and changes nothing when it is not; and after an arming write
(bit `0x80`) every later poll leaves the reset pin `LOW`. -/
theorem C11_device_reset_never_cleared (s t : Device) (raw arm : Nat) (len : Int)
    (wire : List Nat) (n : Nat) (h : s._device_reset = true) (harm : arm &&& 0x80 ≠ 0) :
    (∃ t', controlUpdated raw t = some t' ∧
      t'._device_reset = (t._device_reset || decide (raw &&& 0x80 ≠ 0))) ∧
    (∃ s', receiveEvent len wire s = some s' ∧ s'._device_reset = true) ∧
    (sendEvent s).1._device_reset = true ∧
    (resetIfRequested s)._device_reset = true ∧
    (resetIfRequested s).pin_level s._reset_pin = LOW ∧
    (t._device_reset = true ∨ resetIfRequested t = t) ∧
    (∃ t', controlUpdated arm t = some t' ∧ t'._device_reset = true ∧
      (resetIfRequested^[n + 1] t').pin_level t'._reset_pin = LOW ∧
      (resetIfRequested^[n + 1] t')._device_reset = true) := by
  refine ⟨⟨_, controlUpdated_eq raw t, ?_⟩, ?_, h, ?_, ?_, ?_, ?_⟩
  · show (t._device_reset || raw.testBit 7) = _
    congr 1
    cases hb : raw.testBit 7
    · have : raw &&& 2 ^ 7 = 0 := by
        by_contra hne
        rw [testBit_of_and_ne 7 raw hne] at hb
        exact Bool.noConfusion hb
      exact (decide_eq_false (fun hne => hne this)).symm
    · exact (decide_eq_true ((and_ne_iff_testBit 7 raw).mpr hb)).symm
  · unfold receiveEvent
    by_cases h1 : len = 1
    · rw [if_pos h1]; exact ⟨_, rfl, h⟩
    · rw [if_neg h1]
      cases wire with
      | nil => exact ⟨_, rfl, h⟩
      | cons b rest => exact receiveLoop_device_reset rest (b % 256) _ h
  · exact (resetIfRequested_armed s h).1
  · exact (resetIfRequested_armed s h).2.2
  · cases ht : t._device_reset
    · right; simp [resetIfRequested, ht]
    · left; rfl
  · have hb : arm.testBit 7 = true := testBit_of_and_ne 7 arm harm
    refine ⟨_, controlUpdated_eq arm t, ?_⟩
    have hf : (t._device_reset || arm.testBit 7) = true := by rw [hb]; simp
    refine ⟨hf, ?_, ?_⟩
    · exact (resetIfRequested_iterate n _ hf).2.2
    · exact (resetIfRequested_iterate n _ hf).1

/-- Witness for C11: a device with the flag armed, the arming byte `0x80`, three polls. -/
theorem C11_device_reset_never_cleared_witness :
    ({ powerOn (fun _ => 0xFF) with _device_reset := true } : Device)._device_reset = true ∧
    (0x80 &&& 0x80 ≠ 0) ∧
    ∃ t', controlUpdated 0x80 (powerOn (fun _ => 0xFF)) = some t' ∧
      t'._device_reset = true ∧
      (resetIfRequested^[2 + 1] t').pin_level t'._reset_pin = LOW ∧
      (resetIfRequested^[2 + 1] t')._device_reset = true :=
  ⟨rfl, by decide,
    (C11_device_reset_never_cleared { powerOn (fun _ => 0xFF) with _device_reset := true }
      (powerOn (fun _ => 0xFF)) 0x00 0x80 2 [0x05, 0x01] 2 rfl (by decide)).2.2.2.2.2.2⟩

/-! ## Bit `0x10` on the way in -/

theorem testBit_or_16 (raw k : Nat) (hk : k ≠ 4) :
    (raw ||| 0x10).testBit k = raw.testBit k := by
  have h16 : Nat.testBit 0x10 k = false :=
    Nat.testBit_two_pow_of_ne (n := 4) (fun e => hk e.symm)
  rw [Nat.testBit_or, h16, Bool.or_false]

theorem or_16_and_retain (raw : Nat) : (raw ||| 0x10) &&& 0x0E = raw &&& 0x0E := by
  rw [Nat.land_comm, Nat.and_or_distrib_left, Nat.land_comm 0x0E raw]
  exact Nat.or_zero _

/-- C12: bit `0x10` is never honoured on write: for every device state and every control
byte `raw`, `controlUpdated(raw | 0x10)` ends in the same state as `controlUpdated(raw)`
(same register buffer, EEPROM, mode flags and device-reset flag), and both return. -/
theorem C12_read_location_ignored (s : Device) (raw : Nat) :
    controlUpdated (raw ||| 0x10) s = controlUpdated raw s ∧
    ∃ s', controlUpdated raw s = some s' := by
  refine ⟨?_, _, controlUpdated_eq raw s⟩
  rw [controlUpdated_eq, controlUpdated_eq]
  simp only [testBit_or_16 raw 0 (by decide), testBit_or_16 raw 1 (by decide),
    testBit_or_16 raw 2 (by decide), testBit_or_16 raw 3 (by decide),
    testBit_or_16 raw 5 (by decide), testBit_or_16 raw 6 (by decide),
    testBit_or_16 raw 7 (by decide), or_16_and_retain, loadLocalToEeprom]

/-! ## The address latch -/

theorem receiveLoop_preserves (P : Device → Prop)
    (hset : ∀ (s : Device) (a v : Nat), P s →
      P { s with _regbuffer := setCell s._regbuffer a v })
    (hcu : ∀ (s : Device) (cr : Nat), P s → ∀ s', controlUpdated cr s = some s' → P s')
    (wire : List Nat) :
    ∀ (rx : Nat) (s : Device), P s → ∃ s', receiveLoop wire rx s = some s' ∧ P s' := by
  induction wire with
  | nil => intro rx s h; exact ⟨s, rfl, h⟩
  | cons b rest ih =>
    intro rx s h
    simp only [receiveLoop]
    by_cases h0 : rx % NUM_REGISTERS = CONTROL_REG
    · rw [if_pos h0, controlUpdated_eq]
      apply ih
      exact hcu _ _ (hset s _ _ h) _ (controlUpdated_eq _ _)
    · rw [if_neg h0]
      exact ih _ _ (hset s _ _ h)

theorem controlUpdated_reg (cr : Nat) (s s' : Device) (h : controlUpdated cr s = some s') :
    s'._reg = s._reg := by
  rw [controlUpdated_eq] at h
  cases h
  rfl

theorem receiveEvent_multi_reg (s : Device) (len : Int) (wire : List Nat) (hlen : len ≠ 1) :
    ∃ s', receiveEvent len wire s = some s' ∧ s'._reg = 0 := by
  unfold receiveEvent
  rw [if_neg hlen]
  cases wire with
  | nil => exact ⟨_, rfl, rfl⟩
  | cons b rest =>
    exact receiveLoop_preserves (fun d => d._reg = 0) (fun _ _ _ h => h)
      (fun d cr h d' e => (controlUpdated_reg cr d d' e).trans h) rest (b % 256) _ rfl

/-- C13 fails as stated: on a device whose register `i` holds `i`, after the one-byte
write of address `5` followed by the multi-byte write `[0x07, 0x2A]`, the next bus read
is not served from register 5. -/
theorem C13_read_pointer_counterexample :
    ∃ s1 s2, receiveEvent 1 [0x05] rampDevice = some s1 ∧
      receiveEvent 2 [0x07, 0x2A] s1 = some s2 ∧
      (sendEvent s2).2 = 0 ∧ readData s2 0x05 s2._read_eeprom = 5 ∧
      (sendEvent s2).2 ≠ readData s2 0x05 s2._read_eeprom := by
  have e1 : receiveEvent 1 [0x05] rampDevice = some { rampDevice with _reg := 5 } := rfl
  have e2 : receiveEvent 2 [0x07, 0x2A] { rampDevice with _reg := 5 }
      = some { rampDevice with _reg := 0, _regbuffer := setCell rampDevice._regbuffer 7 0x2A } := by
    rw [receiveEvent_pair _ 7 0x2A (by decide) (by decide), if_neg (by decide)]
  refine ⟨_, _, e1, e2, ?_, ?_, ?_⟩
  · simp [sendEvent, readData, rampDevice, powerOn, setCell]
  · simp [readData, rampDevice, powerOn, setCell]
  · simp [sendEvent, readData, rampDevice, powerOn, setCell]

/-- C13, amended: after a one-byte write of address `a` the read pointer is `a` and the
next bus read is served from register `a`; every other write transaction (any length
other than one) resets the read pointer to `0`, so the bus read that follows it is
served from register 0. -/
theorem C13_read_pointer_amended (s : Device) (a : Nat) (len : Int) (wire : List Nat)
    (ha : a < 256) (hlen : len ≠ 1) :
    (∃ s1, receiveEvent 1 [a] s = some s1 ∧ s1._reg = a ∧
      (sendEvent s1).2 = readData s1 a s1._read_eeprom) ∧
    (∃ s2, receiveEvent len wire s = some s2 ∧ s2._reg = 0 ∧
      (sendEvent s2).2 = readData s2 0 s2._read_eeprom) := by
  constructor
  · refine ⟨_, rfl, rfl, ?_⟩
    have hp : (((a : Int)) % ((256 : Nat) : Int)).toNat = a := by omega
    simp only [sendEvent, Wire_read, NUM_REGISTERS, hp]
  · obtain ⟨s2, e2, r2⟩ := receiveEvent_multi_reg s len wire hlen
    refine ⟨s2, e2, r2, ?_⟩
    simp only [sendEvent, r2]
    rfl

/-- Witness for C13, amended: address `5`, then the transaction `[0x07, 0x2A]`. -/
theorem C13_read_pointer_amended_witness :
    (5 : Nat) < 256 ∧ (2 : Int) ≠ 1 ∧
    (∃ s1, receiveEvent 1 [5] (powerOn (fun _ => 0xFF)) = some s1 ∧ s1._reg = (5 : Nat) ∧
      (sendEvent s1).2 = readData s1 5 s1._read_eeprom) ∧
    (∃ s2, receiveEvent 2 [0x07, 0x2A] (powerOn (fun _ => 0xFF)) = some s2 ∧ s2._reg = 0 ∧
      (sendEvent s2).2 = readData s2 0 s2._read_eeprom) :=
  ⟨by decide, by decide,
    C13_read_pointer_amended (powerOn (fun _ => 0xFF)) 5 2 [0x07, 0x2A] (by decide)
      (by decide)⟩

/-! ## Multi-byte writes against the write path of the specification -/

theorem receiveLoop_eq_specWriteSeq (a : Nat) (ds : List Nat) :
    ∀ (k rx : Nat) (s : Device), (∀ d ∈ ds, d < 256) → rx % 256 = (a + k) % 256 →
      receiveLoop ds rx s = specWriteSeq a k ds s := by
  induction ds with
  | nil => intro k rx s _ _; rfl
  | cons d rest ih =>
    intro k rx s hd hrx
    have hd0 : d % 256 = d := Nat.mod_eq_of_lt (hd d (List.mem_cons_self d rest))
    have hrest : ∀ x ∈ rest, x < 256 := fun x hx => hd x (List.mem_cons_of_mem d hx)
    have hnext : ((a + k) % 256 + 1) % 256 % 256 = (a + (k + 1)) % 256 := by omega
    have hcell : setCell s._regbuffer ((a + k) % 256) d ((a + k) % 256) = d := by
      simp [setCell]
    simp only [receiveLoop, specWriteSeq, specWrite, NUM_REGISTERS, hrx, hd0, hcell]
    congr 1
    funext s2
    exact ih (k + 1) _ s2 hrest hnext

theorem controlUpdated_set_reg (cr : Nat) (s : Device) (r : Int) :
    controlUpdated cr { s with _reg := r }
      = (controlUpdated cr s).map fun x => { x with _reg := r } := by
  rw [controlUpdated_eq, controlUpdated_eq]
  rfl

theorem specWriteSeq_set_reg (a : Nat) (r : Int) (ds : List Nat) :
    ∀ (k : Nat) (s : Device),
      specWriteSeq a k ds { s with _reg := r }
        = (specWriteSeq a k ds s).map fun x => { x with _reg := r } := by
  induction ds with
  | nil => intro k s; rfl
  | cons d rest ih =>
    intro k s
    simp only [specWriteSeq, specWrite]
    by_cases h0 : (a + k) % 256 = CONTROL_REG
    · rw [if_pos h0, if_pos h0]
      have e := controlUpdated_set_reg d
        { s with _regbuffer := setCell s._regbuffer ((a + k) % 256) d } r
      rw [show ({ ({ s with _reg := r } : Device) with
            _regbuffer := setCell ({ s with _reg := r } : Device)._regbuffer
              ((a + k) % 256) d } : Device)
          = { ({ s with _regbuffer := setCell s._regbuffer ((a + k) % 256) d } : Device)
              with _reg := r } from rfl, e]
      cases controlUpdated d { s with _regbuffer := setCell s._regbuffer ((a + k) % 256) d }
        with
      | none => rfl
      | some x => exact ih (k + 1) x
    · rw [if_neg h0, if_neg h0]
      exact ih (k + 1) { s with _regbuffer := setCell s._regbuffer ((a + k) % 256) d }

theorem receiveLoop_total (wire : List Nat) (rx : Nat) (s : Device) :
    ∃ s', receiveLoop wire rx s = some s' := by
  obtain ⟨s', e, _⟩ := receiveLoop_preserves (fun _ => True) (fun _ _ _ _ => trivial)
    (fun _ _ _ _ _ => trivial) wire rx s trivial
  exact ⟨s', e⟩

/-- C14: multi-byte write semantics. For every device state, start address `a` and data
bytes `d_0..d_{n-1}` (`n ≥ 1`), the state after the single transaction
`[a, d_0, ..., d_{n-1}]` is the state after performing, for `k = 0..n-1` in order, the
single-register write of `d_k` to address `(a + k) mod 256` (each write to address 0
followed at once by `controlUpdated(d_k)`), with the read pointer reset to 0: the
register buffer, the EEPROM and the flags are the same. In particular `[0xFF, x, y]`
writes `x` to register 255 and then applies `y` as a control byte. -/
theorem C14_multi_byte_write (s : Device) (a : Nat) (ds : List Nat) (x y : Nat)
    (hds : ∀ d ∈ ds, d < 256) (hn : ds ≠ []) (hx : x < 256) (hy : y < 256) :
    (∃ s' t', receiveEvent ((ds.length + 1 : Nat) : Int) (a :: ds) s = some s' ∧
      specWriteSeq a 0 ds s = some t' ∧ s' = { t' with _reg := 0 } ∧
      s'._regbuffer = t'._regbuffer ∧ s'.EEPROM = t'.EEPROM ∧
      s'._read_eeprom = t'._read_eeprom ∧ s'._use_slave_alt = t'._use_slave_alt ∧
      s'._device_reset = t'._device_reset) ∧
    receiveEvent 3 [0xFF, x, y] s =
      controlUpdated y
        { s with _reg := 0, _regbuffer := setCell (setCell s._regbuffer 0xFF x) 0 y } := by
  constructor
  · have hlen : ¬ (((ds.length + 1 : Nat) : Int) = 1) := by
      have : ds.length ≠ 0 := fun h => hn (List.length_eq_zero.mp h)
      omega
    have hrx : a % 256 % 256 = (a + 0) % 256 := by omega
    have e : receiveEvent ((ds.length + 1 : Nat) : Int) (a :: ds) s
        = specWriteSeq a 0 ds { s with _reg := 0 } := by
      unfold receiveEvent
      rw [if_neg hlen]
      exact receiveLoop_eq_specWriteSeq a ds 0 (a % 256) _ hds hrx
    obtain ⟨t', et⟩ : ∃ t', specWriteSeq a 0 ds s = some t' := by
      rw [← receiveLoop_eq_specWriteSeq a ds 0 (a % 256) s hds hrx]
      exact receiveLoop_total ds _ s
    refine ⟨{ t' with _reg := 0 }, t', ?_, et, rfl, rfl, rfl, rfl, rfl, rfl⟩
    rw [e, specWriteSeq_set_reg, et]
    rfl
  · have h3 : ¬ ((3 : Int) = 1) := by decide
    have hc : setCell (setCell s._regbuffer 255 x) 0 y 0 = y := by simp [setCell]
    simp only [receiveEvent, if_neg h3, receiveLoop, NUM_REGISTERS, CONTROL_REG,
      Nat.mod_eq_of_lt hx, Nat.mod_eq_of_lt hy]
    simp only [show (255 % 256 % 256 = 0) = False from by simp, if_false, Option.some_bind,
      show (255 % 256 % 256 + 1) % 256 % 256 = 0 from by decide, if_true,
      show 255 % 256 % 256 = 255 from by decide, hc]
    cases controlUpdated y
      { s with _reg := 0, _regbuffer := setCell (setCell s._regbuffer 255 x) 0 y } <;> rfl

/-- Witness for C14: the transaction `[0xFE, 0x11, 0x22, 0x48]` on the ramp device. -/
theorem C14_multi_byte_write_witness :
    (∀ d ∈ [0x11, 0x22, 0x48], d < 256) ∧
    ([0x11, 0x22, 0x48] : List Nat) ≠ [] ∧ (0x11 : Nat) < 256 ∧ (0x48 : Nat) < 256 ∧
    ∃ s' t', receiveEvent (([0x11, 0x22, 0x48].length + 1 : Nat) : Int)
        (0xFE :: [0x11, 0x22, 0x48]) rampDevice = some s' ∧
      specWriteSeq 0xFE 0 [0x11, 0x22, 0x48] rampDevice = some t' ∧
      s' = { t' with _reg := 0 } ∧
      s'._regbuffer = t'._regbuffer ∧ s'.EEPROM = t'.EEPROM ∧
      s'._read_eeprom = t'._read_eeprom ∧ s'._use_slave_alt = t'._use_slave_alt ∧
      s'._device_reset = t'._device_reset :=
  ⟨by decide, by decide, by decide, by decide,
    (C14_multi_byte_write rampDevice 0xFE [0x11, 0x22, 0x48] 0x11 0x48 (by decide)
      (by decide) (by decide) (by decide)).1⟩

/-! ## What touches the EEPROM -/

theorem receiveLoop_off_control (ds : List Nat) :
    ∀ (rx : Nat) (s : Device), (∀ k, k < ds.length → (rx + k) % 256 ≠ 0) →
      ∃ s', receiveLoop ds rx s = some s' ∧ s'.EEPROM = s.EEPROM ∧
        s'._read_eeprom = s._read_eeprom ∧ s'._use_slave_alt = s._use_slave_alt ∧
        s'._device_reset = s._device_reset := by
  induction ds with
  | nil => intro rx s _; exact ⟨s, rfl, rfl, rfl, rfl, rfl⟩
  | cons d rest ih =>
    intro rx s h
    have h0 : ¬ (rx % NUM_REGISTERS = CONTROL_REG) := by
      have := h 0 (Nat.succ_pos _)
      simpa using this
    have hrest : ∀ k, k < rest.length → ((rx % NUM_REGISTERS + 1) % 256 + k) % 256 ≠ 0 := by
      intro k hk
      have := h (k + 1) (Nat.succ_lt_succ hk)
      simp only [NUM_REGISTERS]
      omega
    simp only [receiveLoop, if_neg h0, Option.some_bind]
    exact ih _ { s with _regbuffer := setCell s._regbuffer (rx % NUM_REGISTERS) (d % 256) }
      hrest

/-- C15: the EEPROM is mutated only by the store and reset operations.
`controlUpdated(raw)` with bits `0x20` and `0x40` both clear leaves every EEPROM cell
unchanged; a bus write transaction none of whose data bytes lands on address 0 leaves
the EEPROM, `_read_eeprom`, `_use_slave_alt` and the device-reset flag unchanged; and a
bus read (`sendEvent`) changes no state at all. -/
theorem C15_eeprom_frame (s t : Device) (raw : Nat) (len : Int) (wire : List Nat)
    (h20 : raw &&& 0x20 = 0) (h40 : raw &&& 0x40 = 0)
    (hw : ∀ a ds, wire = a :: ds → ∀ k, k < ds.length → (a + k) % 256 ≠ 0) :
    (∃ t', controlUpdated raw t = some t' ∧ t'.EEPROM = t.EEPROM) ∧
    (∃ s', receiveEvent len wire s = some s' ∧ s'.EEPROM = s.EEPROM ∧
      s'._read_eeprom = s._read_eeprom ∧ s'._use_slave_alt = s._use_slave_alt ∧
      s'._device_reset = s._device_reset) ∧
    (sendEvent s).1 = s := by
  have hb5 : raw.testBit 5 = false := testBit_of_and_eq 5 raw h20
  have hb6 : raw.testBit 6 = false := testBit_of_and_eq 6 raw h40
  refine ⟨⟨_, controlUpdated_eq raw t, ?_⟩, ?_, rfl⟩
  · simp only [hb5, hb6, Bool.false_eq_true, if_false]
  · unfold receiveEvent
    by_cases h1 : len = 1
    · rw [if_pos h1]; exact ⟨_, rfl, rfl, rfl, rfl, rfl⟩
    · rw [if_neg h1]
      cases wire with
      | nil => exact ⟨_, rfl, rfl, rfl, rfl, rfl⟩
      | cons a ds =>
        have hk : ∀ k, k < ds.length → (a % 256 + k) % 256 ≠ 0 := by
          intro k hk
          have := hw a ds rfl k hk
          omega
        exact receiveLoop_off_control ds (a % 256) { s with _reg := 0 } hk

/-- Witness for C15: the control byte `0x8F` and the transaction `[0xFE, 0x11, 0x22]`,
whose data bytes land on addresses 254 and 255. -/
theorem C15_eeprom_frame_witness :
    (0x8F &&& 0x20 = 0) ∧ (0x8F &&& 0x40 = 0) ∧
    (∃ t', controlUpdated 0x8F rampDevice = some t' ∧ t'.EEPROM = rampDevice.EEPROM) ∧
    (∃ s', receiveEvent 3 [0xFE, 0x11, 0x22] rampDevice = some s' ∧
      s'.EEPROM = rampDevice.EEPROM ∧
      s'._read_eeprom = rampDevice._read_eeprom ∧
      s'._use_slave_alt = rampDevice._use_slave_alt ∧
      s'._device_reset = rampDevice._device_reset) ∧
    (sendEvent rampDevice).1 = rampDevice :=
  ⟨by decide, by decide,
    C15_eeprom_frame rampDevice rampDevice 0x8F 3 [0xFE, 0x11, 0x22] (by decide) (by decide)
      (by
        intro a ds h k hk
        cases h
        have hk' : k < 2 := hk
        omega)⟩

theorem receiveEvent_control_fields (s : Device) (v : Nat) (hv : v < 256) :
    ∃ s', receiveEvent 2 [0x00, v] s = some s' ∧
      s'._regbuffer = setCell
        (if v.testBit 2 = true ∧ v.testBit 0 = false ∧ v.testBit 6 = false
          then loadEepromToLocal s.EEPROM (setCell s._regbuffer 0 v)
          else setCell s._regbuffer 0 v)
        CONTROL_REG (v &&& 0x0E) ∧
      s'.EEPROM =
        (if v.testBit 6 = true then
          loadLocalToEeprom v 0x0E (setCell s._regbuffer 0 v)
            (if v.testBit 5 = true then eepromReset 0x0E s.EEPROM else s.EEPROM)
        else if v.testBit 5 = true then eepromReset 0x0E s.EEPROM else s.EEPROM) := by
  obtain ⟨s', e, c⟩ := receiveEvent_control s v hv
  rw [controlUpdated_eq] at c
  cases c
  exact ⟨_, e, rfl, rfl⟩

/-- C16: applying the reset and then the store in two separate writes leaves the EEPROM
in the state dictated by the second write only: for every device state `s`, the EEPROM
after the bus writes `[0x00, 0x20]` then `[0x00, 0x40]` started from `s` equals the
EEPROM after the single bus write `[0x00, 0x40]` started from `s`. -/
theorem C16_reset_then_store (s : Device) :
    ∃ s1 s2 s3, receiveEvent 2 [0x00, 0x20] s = some s1 ∧
      receiveEvent 2 [0x00, 0x40] s1 = some s2 ∧
      receiveEvent 2 [0x00, 0x40] s = some s3 ∧
      s2.EEPROM = s3.EEPROM := by
  have b200 : Nat.testBit 0x20 0 = false := by decide
  have b202 : Nat.testBit 0x20 2 = false := by decide
  have b205 : Nat.testBit 0x20 5 = true := by decide
  have b206 : Nat.testBit 0x20 6 = false := by decide
  have b406 : Nat.testBit 0x40 6 = true := by decide
  have b405 : Nat.testBit 0x40 5 = false := by decide
  obtain ⟨s1, e1, r1, m1⟩ := receiveEvent_control_fields s 0x20 (by decide)
  obtain ⟨s2, e2, _, m2⟩ := receiveEvent_control_fields s1 0x40 (by decide)
  obtain ⟨s3, e3, _, m3⟩ := receiveEvent_control_fields s 0x40 (by decide)
  refine ⟨s1, s2, s3, e1, e2, e3, ?_⟩
  simp only [b200, b202, b205, b206, Bool.false_eq_true, false_and, if_false, if_true]
    at r1 m1
  simp only [b406, b405, Bool.false_eq_true, if_false, if_true] at m2 m3
  funext j
  rw [m2, m3, loadLocalToEeprom_apply, loadLocalToEeprom_apply, r1, m1, eepromReset_apply]
  by_cases hj : j < 256
  · rw [if_pos hj, if_pos hj]
    by_cases h0 : j = 0
    · rw [if_pos h0, if_pos h0]
    · simp only [if_neg h0, setCell, CONTROL_REG]
  · have h0 : j ≠ 0 := by omega
    have h1 : j ≠ 1 := by omega
    have h2 : j ≠ 2 := by omega
    have h4 : ¬ (4 ≤ j ∧ j < 256) := by omega
    rw [if_neg hj, if_neg hj, if_neg h0, if_neg h1, if_neg h2, if_neg h4]

/-! ## `getRange` on concrete ranges -/

theorem getRangeLoop_writes (r : Nat → Nat) :
    ∀ (fuel i : Nat) (buf b : RangeBuffer), getRangeLoop r fuel i buf = some b →
      ∀ k, k ∈ buf.writes → k ∈ b.writes := by
  intro fuel
  induction fuel with
  | zero => intro i buf b h; simp [getRangeLoop] at h
  | succ fuel ih =>
    intro i buf b h k hk
    simp only [getRangeLoop] at h
    by_cases h0 : i ≠ 0
    · rw [if_pos h0] at h
      exact ih _ _ b h k (List.mem_cons_of_mem _ hk)
    · rw [if_neg h0] at h
      cases h
      exact hk

theorem getRangeLoop_total (r : Nat → Nat) :
    ∀ (fuel i : Nat) (buf : RangeBuffer), i < 256 → 257 - i ≤ fuel + (if i = 0 then 256 else 0) →
      1 ≤ fuel → ∃ b, getRangeLoop r fuel i buf = some b := by
  intro fuel
  induction fuel with
  | zero => intro i buf _ _ h1; omega
  | succ fuel ih =>
    intro i buf hi hf _
    simp only [getRangeLoop]
    by_cases h0 : i ≠ 0
    · rw [if_pos h0]
      have h0' : ¬ (i = 0) := h0
      rw [if_neg h0'] at hf
      apply ih
      · omega
      · by_cases h255 : i = 255
        · subst h255; simp; omega
        · have hm : (i + 1) % 256 = i + 1 := by omega
          have hne : ¬ (i + 1 = 0) := by omega
          rw [hm, if_neg hne]
          omega
      · omega
    · rw [if_neg h0]
      exact ⟨buf, rfl⟩

theorem getRangeLoop_size (r : Nat → Nat) :
    ∀ (fuel i : Nat) (buf b : RangeBuffer), getRangeLoop r fuel i buf = some b →
      b.size = buf.size := by
  intro fuel
  induction fuel with
  | zero => intro i buf b h; simp [getRangeLoop] at h
  | succ fuel ih =>
    intro i buf b h
    simp only [getRangeLoop] at h
    by_cases h0 : i ≠ 0
    · rw [if_pos h0] at h
      exact (ih _ _ b h).trans rfl
    · rw [if_neg h0] at h
      cases h
      rfl

theorem getRange_unfold (s : Device) (start end_ : Nat) :
    getRange s start end_ = getRangeLoop s._regbuffer (255 + 1) start
      { size := (end_ : Int) - (start : Int), cells := fun _ => none, writes := [] } := rfl

/-- C17, the code at two concrete ranges: `getRange(0, 1)` returns a buffer of length 1
whose only cell was never written, and `getRange(1, 2)` writes index 2 of a buffer of
length 1. -/
theorem C17_getRange_defect (s : Device) :
    (∃ b, getRange s 0 1 = some b ∧ b.size = 1 ∧ b.writes = [] ∧ b.cells 0 = none) ∧
    (∃ b, getRange s 1 2 = some b ∧ b.size = 1 ∧ 2 ∈ b.writes ∧ ¬ ((2 : Int) < b.size)) := by
  constructor
  · refine ⟨RangeBuffer.mk (((1 : Nat) : Int) - ((0 : Nat) : Int)) (fun _ => none) [],
      ?_, ?_, rfl, rfl⟩
    · rw [getRange_unfold, getRangeLoop, if_neg (by decide)]
    · decide
  · have e : getRange s 1 2 = getRangeLoop s._regbuffer 255 ((1 + 1) % 256)
        { size := ((2 : Nat) : Int) - ((1 : Nat) : Int),
          cells := fun k => if k = (1 + 1) % 256 then some (s._regbuffer ((1 + 1) % 256))
            else none,
          writes := [(1 + 1) % 256] } := by
      rw [getRange_unfold, getRangeLoop, if_pos (by decide)]
    obtain ⟨b, hb⟩ := getRangeLoop_total s._regbuffer 255 ((1 + 1) % 256)
      { size := ((2 : Nat) : Int) - ((1 : Nat) : Int),
        cells := fun k => if k = (1 + 1) % 256 then some (s._regbuffer ((1 + 1) % 256))
          else none,
        writes := [(1 + 1) % 256] } (by decide) (by decide) (by decide)
    have h21 : ((2 : Nat) : Int) - ((1 : Nat) : Int) = 1 := by decide
    have hs : b.size = 1 := (getRangeLoop_size s._regbuffer _ _ _ b hb).trans h21
    refine ⟨b, e.trans hb, hs, ?_, ?_⟩
    · exact getRangeLoop_writes s._regbuffer _ _ _ b hb 2 (List.mem_singleton.mpr rfl)
    · rw [hs]; decide

/-! ## The default of the control register -/

/-- C18, the code at the control byte `0x20`: the reset stores `0x04` in the EEPROM
control cell, not `0x02`. -/
theorem C18_reset_control_cell (s : Device) :
    ∃ s', controlUpdated 0x20 s = some s' ∧ s'.EEPROM 0 = 0x04 ∧ s'.EEPROM 0 ≠ 0x02 := by
  have b5 : Nat.testBit 0x20 5 = true := by decide
  have b6 : Nat.testBit 0x20 6 = false := by decide
  obtain ⟨s', e, _, m⟩ := controlUpdated_fields 0x20 s
  simp only [b5, b6, Bool.false_eq_true, if_false, if_true] at m
  have h : s'.EEPROM 0 = 0x04 := by
    rw [m, eepromReset_apply, if_pos rfl]
    decide
  refine ⟨s', e, h, ?_⟩
  rw [h]
  decide

/-! ## Termination of the control loop -/

theorem controlLoop_eq_masks (cr pm : Nat) :
    ∀ (fuel mask : Nat) (st : ControlFrame),
      controlLoop fuel cr pm mask (mask &&& cr) st
        = (controlMasks fuel mask).map fun ms =>
            ms.foldl (fun acc m => controlCase cr pm (m &&& cr) acc) st := by
  intro fuel
  induction fuel with
  | zero =>
    intro mask st
    simp only [controlLoop, controlMasks]
    split <;> rfl
  | succ fuel ih =>
    intro mask st
    simp only [controlLoop, controlMasks]
    split
    · rw [ih, Option.map_map]
      rfl
    · rfl

theorem controlMasks_more_fuel :
    ∀ (n mask : Nat) (ms : List Nat), controlMasks n mask = some ms →
      ∀ k, controlMasks (n + k) mask = some ms := by
  intro n
  induction n with
  | zero =>
    intro mask ms h k
    simp only [controlMasks] at h
    by_cases hm : mask > 0
    · rw [if_pos hm] at h; cases h
    · rw [if_neg hm] at h
      cases k with
      | zero => simp only [controlMasks, Nat.add_zero, if_neg hm]; exact h
      | succ k => simp only [Nat.zero_add, controlMasks, if_neg hm]; exact h
  | succ n ih =>
    intro mask ms h k
    rw [Nat.add_right_comm]
    simp only [controlMasks] at h ⊢
    by_cases hm : mask > 0
    · rw [if_pos hm] at h ⊢
      cases hrec : controlMasks n ((mask <<< 1) % 256) with
      | none => rw [hrec] at h; cases h
      | some ms' =>
        rw [hrec] at h
        rw [ih _ ms' hrec k]
        exact h
    · rw [if_neg hm] at h ⊢
      exact h

/-- C19: the bit-decode loop of `controlUpdated` terminates for every control byte and
every state after exactly 8 iterations, visiting the masks `0x01, 0x02, ..., 0x80` in
ascending order whatever bits are set: with fuel 8 or more the loop returns the fold of
the switch over those eight masks, with less fuel it does not return, and
`controlUpdated` returns; the loop ends because `0x80 << 1` is `0` modulo `2^8` (it is
not `0` as an untruncated number). -/
theorem C19_control_loop_eight_masks (cr pm k : Nat) (st : ControlFrame) (s : Device) :
    controlMasks (8 + k) 0x01 = some [0x01, 0x02, 0x04, 0x08, 0x10, 0x20, 0x40, 0x80] ∧
    (∀ fuel : Fin 8, controlMasks fuel 0x01 = none) ∧
    controlLoop (8 + k) cr pm 0x01 (0x01 &&& cr) st
      = some ([0x01, 0x02, 0x04, 0x08, 0x10, 0x20, 0x40, 0x80].foldl
          (fun acc m => controlCase cr pm (m &&& cr) acc) st) ∧
    (∀ fuel : Fin 8, controlLoop fuel cr pm 0x01 (0x01 &&& cr) st = none) ∧
    (∃ s', controlUpdated cr s = some s') ∧
    (0x80 <<< 1) % 256 = 0 ∧ 0x80 <<< 1 ≠ 0 := by
  have h8 : controlMasks 8 0x01 = some [0x01, 0x02, 0x04, 0x08, 0x10, 0x20, 0x40, 0x80] :=
    by decide
  have hlt : ∀ fuel : Fin 8, controlMasks fuel 0x01 = none := by decide
  refine ⟨controlMasks_more_fuel 8 1 _ h8 k, hlt, ?_, ?_, ⟨_, controlUpdated_eq cr s⟩,
    by decide, by decide⟩
  · rw [controlLoop_eq_masks, controlMasks_more_fuel 8 1 _ h8 k]
    rfl
  · intro fuel
    rw [controlLoop_eq_masks, hlt fuel]
    rfl

/-! ## First boot on an erased EEPROM -/

theorem controlUpdated_flags (cr : Nat) (s s' : Device) (h : controlUpdated cr s = some s') :
    s'._read_eeprom = cr.testBit 3 ∧ s'._use_slave_alt = cr.testBit 1 ∧
    s'._device_reset = (s._device_reset || cr.testBit 7) := by
  rw [controlUpdated_eq] at h
  cases h
  exact ⟨rfl, rfl, rfl⟩

theorem I2CSlaveMode_eq (s s1 : Device) (address : Nat) (pin : Int)
    (e1 : controlUpdated (s.EEPROM 0)
      (pinModeOutput pin (digitalWrite pin HIGH { s with _reset_pin := pin })) = some s1) :
    I2CSlaveMode address pin s = some
      (if s1._use_slave_alt = true then
        if s1.EEPROM 1 < 0x03 ∨ s1.EEPROM 1 > 0x77 then
          { s1 with _i2c_slave_address := I2C_SLAVE_ADDRESS }
        else { s1 with _i2c_slave_address := s1.EEPROM 1 }
       else { s1 with _i2c_slave_address := address }) := by
  unfold I2CSlaveMode
  simp only [EEPROM_read, CONTROL_REG, I2C_ADDR_REG]
  erw [e1]
  rfl

/-- C20: first boot on an erased EEPROM. For every construction whose EEPROM control cell
is `0xFF` and whose register buffer is zero-initialised (whatever the device-reset flag
was, so also when it is initially false), after the constructor the device-reset flag
is armed, `_read_eeprom` is true, `EEPROM[0] = 0x0E`, `EEPROM[i] = 0x00` for every `i` in `1..255`,
`_regbuffer[0] = 0x0E`, and the resolved bus address is `0x08` whatever address was
passed to the constructor. -/
theorem C20_erased_first_boot (s : Device) (address : Nat) (pin : Int)
    (hE : s.EEPROM 0 = 0xFF) (hR : ∀ i, s._regbuffer i = 0) :
    ∃ s', I2CSlaveMode address pin s = some s' ∧
      s'._device_reset = true ∧ s'._read_eeprom = true ∧
      s'.EEPROM 0 = 0x0E ∧ (∀ i, 1 ≤ i → i ≤ 255 → s'.EEPROM i = 0x00) ∧
      s'._regbuffer 0 = 0x0E ∧ getAddress s' = 0x08 := by
  have b0 : Nat.testBit 0xFF 0 = true := by decide
  have b1 : Nat.testBit 0xFF 1 = true := by decide
  have b3 : Nat.testBit 0xFF 3 = true := by decide
  have b6 : Nat.testBit 0xFF 6 = true := by decide
  have b7 : Nat.testBit 0xFF 7 = true := by decide
  have hFE : (0xFF : Nat) &&& 0x0E = 0x0E := by decide
  obtain ⟨s1, e1, r1, m1⟩ := controlUpdated_fields (s.EEPROM 0)
    (pinModeOutput pin (digitalWrite pin HIGH { s with _reset_pin := pin }))
  obtain ⟨f3, f1, f7⟩ := controlUpdated_flags _ _ _ e1
  rw [hE] at r1 m1 f3 f1 f7
  simp only [b0, b6, Bool.true_eq_false, and_false, false_and, if_false, if_true, hFE]
    at r1 m1
  rw [b3] at f3
  rw [b1] at f1
  rw [b7, Bool.or_true] at f7
  have hcell : ∀ i, i < 256 → s1.EEPROM i = if i = 0 then 0x0E else 0 := by
    intro i hi
    rw [m1, loadLocalToEeprom_apply, if_pos hi, hFE]
    by_cases h0 : i = 0
    · rw [if_pos h0, if_pos h0]
    · rw [if_neg h0, if_neg h0]
      exact hR i
  have hA : s1.EEPROM 1 = 0 := by rw [hcell 1 (by decide)]; rfl
  have hlow : s1.EEPROM 1 < 0x03 ∨ s1.EEPROM 1 > 0x77 := by rw [hA]; left; decide
  refine ⟨_, I2CSlaveMode_eq s s1 address pin e1, ?_⟩
  rw [if_pos f1, if_pos hlow]
  refine ⟨f7, f3, ?_, ?_, ?_, rfl⟩
  · exact hcell 0 (by decide)
  · intro i h1 h255
    have h0 : i ≠ 0 := by omega
    have := hcell i (by omega)
    rw [if_neg h0] at this
    exact this
  · show s1._regbuffer 0 = 0x0E
    rw [r1]
    rfl

/-- Witness for C20: the power-on state over an erased EEPROM, constructed with
address `0x20` and pin 12. -/
theorem C20_erased_first_boot_witness :
    (powerOn (fun _ => 0xFF)).EEPROM 0 = 0xFF ∧
    (∀ i, (powerOn (fun _ => 0xFF))._regbuffer i = 0) ∧
    ∃ s', I2CSlaveMode 0x20 12 (powerOn (fun _ => 0xFF)) = some s' ∧
      s'._device_reset = true ∧ s'._read_eeprom = true ∧
      s'.EEPROM 0 = 0x0E ∧ (∀ i, 1 ≤ i → i ≤ 255 → s'.EEPROM i = 0x00) ∧
      s'._regbuffer 0 = 0x0E ∧ getAddress s' = 0x08 :=
  ⟨rfl, fun _ => rfl,
    C20_erased_first_boot (powerOn (fun _ => 0xFF)) 0x20 12 rfl (fun _ => rfl)⟩

/-! ## The reset and the program-control offset register -/

/-- C21: the reset does not touch the program-control offset register: for every device
state and every control byte `raw` with bit `0x20` set and bit `0x40` clear, EEPROM
cell 3 after `controlUpdated(raw)` is what it was before. -/
theorem C21_reset_keeps_pc_offset (s : Device) (raw : Nat) (h20 : raw &&& 0x20 ≠ 0)
    (h40 : raw &&& 0x40 = 0) :
    ∃ s', controlUpdated raw s = some s' ∧ s'.EEPROM PC_OFFSET = s.EEPROM PC_OFFSET := by
  have hb5 : raw.testBit 5 = true := testBit_of_and_ne 5 raw h20
  have hb6 : raw.testBit 6 = false := testBit_of_and_eq 6 raw h40
  obtain ⟨s', e, _, m⟩ := controlUpdated_fields raw s
  simp only [hb5, hb6, Bool.false_eq_true, if_false, if_true] at m
  refine ⟨s', e, ?_⟩
  have h0 : ¬ (3 = 0) := by decide
  have h1 : ¬ (3 = 1) := by decide
  have h2 : ¬ (3 = 2) := by decide
  have h4 : ¬ (4 ≤ 3 ∧ 3 < 256) := by decide
  rw [m, show PC_OFFSET = 3 from rfl, eepromReset_apply, if_neg h0, if_neg h1, if_neg h2,
    if_neg h4]

/-- Witness for C21: the control byte `0xA4` (reset with reload and device reset) on the
ramp device. -/
theorem C21_reset_keeps_pc_offset_witness :
    (0xA4 &&& 0x20 ≠ 0) ∧ (0xA4 &&& 0x40 = 0) ∧
    ∃ s', controlUpdated 0xA4 rampDevice = some s' ∧
      s'.EEPROM PC_OFFSET = rampDevice.EEPROM PC_OFFSET :=
  ⟨by decide, by decide, C21_reset_keeps_pc_offset rampDevice 0xA4 (by decide) (by decide)⟩

/-! ## The older `controlUpdated` against the newer one -/

theorem controlUpdatedOld_unroll (cr : Nat) (s : Device) :
    controlUpdatedOld cr s = some (storeControl cr 0x0E
        (controlCaseOld cr 0x0E (0x80 &&& cr) (controlCaseOld cr 0x0E (0x40 &&& cr)
        (controlCaseOld cr 0x0E (0x20 &&& cr) (controlCaseOld cr 0x0E (0x10 &&& cr)
        (controlCaseOld cr 0x0E (0x08 &&& cr) (controlCaseOld cr 0x0E (0x04 &&& cr)
        (controlCaseOld cr 0x0E (0x02 &&& cr) (controlCaseOld cr 0x0E (0x01 &&& cr)
          { local_preserve := false,
            dev := { s with _read_eeprom := false, _use_slave_alt := false } })))))))).dev)
    := by
  rfl

theorem controlCaseOld_00 (cr pm : Nat) (st : ControlFrame) :
    controlCaseOld cr pm 0x00 st = st := rfl

theorem controlCaseOld_01 (cr pm : Nat) (st : ControlFrame) :
    controlCaseOld cr pm 0x01 st = { st with local_preserve := true } := rfl

theorem controlCaseOld_02 (cr pm : Nat) (st : ControlFrame) :
    controlCaseOld cr pm 0x02 st
      = { st with dev := { st.dev with _use_slave_alt := true } } := rfl

theorem controlCaseOld_04 (cr pm : Nat) (st : ControlFrame) :
    controlCaseOld cr pm 0x04 st
      = if st.local_preserve = false then
          { st with dev := { st.dev with
              _regbuffer := loadEepromToLocal st.dev.EEPROM st.dev._regbuffer } }
        else st := rfl

theorem controlCaseOld_08 (cr pm : Nat) (st : ControlFrame) :
    controlCaseOld cr pm 0x08 st
      = { st with dev := { st.dev with _read_eeprom := true } } := rfl

theorem controlCaseOld_10 (cr pm : Nat) (st : ControlFrame) :
    controlCaseOld cr pm 0x10 st = st := rfl

theorem controlCaseOld_20 (cr pm : Nat) (st : ControlFrame) :
    controlCaseOld cr pm 0x20 st
      = { st with dev := { st.dev with EEPROM := eepromReset pm st.dev.EEPROM } } := rfl

theorem controlCaseOld_40 (cr pm : Nat) (st : ControlFrame) :
    controlCaseOld cr pm 0x40 st
      = { st with dev := { st.dev with
            EEPROM := loadLocalToEeprom cr pm st.dev._regbuffer st.dev.EEPROM } } := rfl

theorem controlCaseOld_80 (cr pm : Nat) (st : ControlFrame) :
    controlCaseOld cr pm 0x80 st
      = { st with dev := { st.dev with _device_reset := true } } := rfl

/-- What the older `controlUpdated cr` leaves behind, field by field: as in the newer
version, except that the reload (bit 2) is blocked by bit 0 alone, and the store (bit 6)
copies the register buffer as the reload left it. -/
theorem controlUpdatedOld_eq (cr : Nat) (s : Device) :
    controlUpdatedOld cr s = some { s with
      _read_eeprom := cr.testBit 3,
      _use_slave_alt := cr.testBit 1,
      _device_reset := s._device_reset || cr.testBit 7,
      _regbuffer := setCell
        (if cr.testBit 2 = true ∧ cr.testBit 0 = false
          then loadEepromToLocal s.EEPROM s._regbuffer else s._regbuffer)
        CONTROL_REG (cr &&& 0x0E),
      EEPROM :=
        if cr.testBit 6 = true then
          loadLocalToEeprom cr 0x0E
            (if cr.testBit 2 = true ∧ cr.testBit 0 = false
              then loadEepromToLocal s.EEPROM s._regbuffer else s._regbuffer)
            (if cr.testBit 5 = true then eepromReset 0x0E s.EEPROM else s.EEPROM)
        else if cr.testBit 5 = true then eepromReset 0x0E s.EEPROM else s.EEPROM } := by
  rw [controlUpdatedOld_unroll]
  simp only [mask01, mask02, mask04, mask08, mask10, mask20, mask40, mask80]
  cases h0 : cr.testBit 0
  all_goals cases h1 : cr.testBit 1
  all_goals cases h2 : cr.testBit 2
  all_goals cases h3 : cr.testBit 3
  all_goals cases h4 : cr.testBit 4
  all_goals cases h5 : cr.testBit 5
  all_goals cases h6 : cr.testBit 6
  all_goals cases h7 : cr.testBit 7
  all_goals simp only [if_true, if_false, Bool.false_eq_true,
    Bool.true_eq_false, controlCaseOld_00,
    controlCaseOld_01, controlCaseOld_02, controlCaseOld_04, controlCaseOld_08,
    controlCaseOld_10, controlCaseOld_20, controlCaseOld_40, controlCaseOld_80, true_and,
    and_true, and_false, false_and, and_self, Bool.or_true, Bool.or_false, storeControl]

/-- The two arrays after the older `controlUpdated cr`, read off the closed form. -/
theorem controlUpdatedOld_fields (cr : Nat) (s : Device) :
    ∃ s', controlUpdatedOld cr s = some s' ∧
      s'._regbuffer = setCell
        (if cr.testBit 2 = true ∧ cr.testBit 0 = false
          then loadEepromToLocal s.EEPROM s._regbuffer else s._regbuffer)
        CONTROL_REG (cr &&& 0x0E) ∧
      s'.EEPROM =
        (if cr.testBit 6 = true then
          loadLocalToEeprom cr 0x0E
            (if cr.testBit 2 = true ∧ cr.testBit 0 = false
              then loadEepromToLocal s.EEPROM s._regbuffer else s._regbuffer)
            (if cr.testBit 5 = true then eepromReset 0x0E s.EEPROM else s.EEPROM)
        else if cr.testBit 5 = true then eepromReset 0x0E s.EEPROM else s.EEPROM) :=
  ⟨_, controlUpdatedOld_eq cr s, rfl, rfl⟩

/-- C22: the two versions of `controlUpdated` (older `src/I2CSlaveMode.cpp`, newer
`src/I2CSlaveMode/I2CSlaveMode.cpp`) agree except on the `0x04`/`0x40` conflict: for
every device state and every control byte `raw` that does not have bit `0x04` set, bit
`0x40` set and bit `0x01` clear, both return the same state (register buffer, EEPROM
and flags); and for `raw = 0x44` they differ on the ramp device, whose register buffer
and EEPROM differ on a cell in `1..255`: the older version reloads register 5 from the
EEPROM (`0xFF`) and stores that, the newer one keeps register 5 (`0x05`) and stores it. -/
theorem C22_versions_agree_off_conflict (s : Device) (raw : Nat)
    (h : ¬ (raw &&& 0x04 ≠ 0 ∧ raw &&& 0x40 ≠ 0 ∧ raw &&& 0x01 = 0)) :
    (controlUpdatedOld raw s = controlUpdated raw s ∧
      ∃ s', controlUpdated raw s = some s') ∧
    (∃ a b, controlUpdatedOld 0x44 rampDevice = some a ∧
      controlUpdated 0x44 rampDevice = some b ∧
      (∃ i, 1 ≤ i ∧ i ≤ 255 ∧ rampDevice._regbuffer i ≠ rampDevice.EEPROM i) ∧
      a._regbuffer 5 = 0xFF ∧ b._regbuffer 5 = 0x05 ∧
      a.EEPROM 5 = 0xFF ∧ b.EEPROM 5 = 0x05 ∧
      controlUpdatedOld 0x44 rampDevice ≠ controlUpdated 0x44 rampDevice) := by
  constructor
  · have hb : ¬ (raw.testBit 2 = true ∧ raw.testBit 6 = true ∧ raw.testBit 0 = false) := by
      rintro ⟨h2, h6, h0⟩
      refine h ⟨(and_ne_iff_testBit 2 raw).mpr h2, (and_ne_iff_testBit 6 raw).mpr h6, ?_⟩
      have e := and_two_pow 0 raw
      rw [h0] at e
      exact e
    refine ⟨?_, _, controlUpdated_eq raw s⟩
    rw [controlUpdatedOld_eq, controlUpdated_eq]
    cases h0 : raw.testBit 0
    all_goals cases h2 : raw.testBit 2
    all_goals cases h6 : raw.testBit 6
    all_goals simp only [h0, h2, h6, Bool.false_eq_true, Bool.true_eq_false, true_and,
      and_true, and_false, false_and, and_self, if_true, if_false, not_true_eq_false]
      at hb ⊢
  · have b0 : Nat.testBit 0x44 0 = false := by decide
    have b2 : Nat.testBit 0x44 2 = true := by decide
    have b5 : Nat.testBit 0x44 5 = false := by decide
    have b6 : Nat.testBit 0x44 6 = true := by decide
    have hR : rampDevice._regbuffer 5 = 5 := rfl
    have hE : rampDevice.EEPROM 5 = 0xFF := rfl
    have h50 : ¬ (5 = 0) := by decide
    have h5 : 5 < 256 := by decide
    obtain ⟨a, ea, ra, ma⟩ := controlUpdatedOld_fields 0x44 rampDevice
    obtain ⟨b, eb, rb, mb⟩ := controlUpdated_fields 0x44 rampDevice
    simp only [b0, b2, b5, b6, Bool.false_eq_true, Bool.true_eq_false, and_self, and_false,
      if_true, if_false] at ra ma rb mb
    have ha : a._regbuffer 5 = 0xFF := by
      rw [ra]
      simp only [setCell, CONTROL_REG, if_neg h50, loadEepromToLocal_apply, if_pos h5, hE]
    have hb : b._regbuffer 5 = 0x05 := by
      rw [rb]
      simp only [setCell, CONTROL_REG, if_neg h50, hR]
    have haE : a.EEPROM 5 = 0xFF := by
      rw [ma]
      simp only [loadLocalToEeprom_apply, if_pos h5, if_neg h50, loadEepromToLocal_apply,
        hE]
    have hbE : b.EEPROM 5 = 0x05 := by
      rw [mb]
      simp only [loadLocalToEeprom_apply, if_pos h5, if_neg h50, hR]
    refine ⟨a, b, ea, eb, ⟨5, by decide, by decide, ?_⟩, ha, hb, haE, hbE, ?_⟩
    · rw [hR, hE]; decide
    · rw [ea, eb]
      intro hab
      have hab' : a = b := Option.some.inj hab
      rw [hab', hb] at ha
      exact absurd ha (by decide)

/-- Witness for C22: the control byte `0x04` (reload alone) on the ramp device. -/
theorem C22_versions_agree_off_conflict_witness :
    ¬ (0x04 &&& 0x04 ≠ 0 ∧ 0x04 &&& 0x40 ≠ 0 ∧ 0x04 &&& 0x01 = 0) ∧
    controlUpdatedOld 0x04 rampDevice = controlUpdated 0x04 rampDevice ∧
    ∃ s', controlUpdated 0x04 rampDevice = some s' :=
  ⟨by decide, (C22_versions_agree_off_conflict rampDevice 0x04 (by decide)).1⟩

end I2C
